import Mathlib

/-!
Verification of the per-repository branch-synchronization orchestrator of
the gh-actions-shared repository.  The Python sources under
.github/scripts are shallowly embedded: pure helpers become Lean
functions, the stateful orchestrator becomes explicit state passing in a
state-and-error monad, and the hosting API is modelled as a state
structure holding the repository's commit graph, branch refs and issue
list, with the host-side behaviours (fast-forward acceptance, 404 on a
missing ref, 410 when issues are disabled) that the spec fixes at the
interface boundary.
-/

namespace GhShared

/-! ## Association lists

Python dicts that the scripts key by strings (branch refs, cache keys,
HTTP headers) are embedded as association lists with decidable keys. -/

def alookup {κ α : Type} [DecidableEq κ] : List (κ × α) → κ → Option α
  | [], _ => none
  | (k2, v) :: rest, k => if k2 = k then some v else alookup rest k

def aset {κ α : Type} [DecidableEq κ] : List (κ × α) → κ → α → List (κ × α)
  | [], k, v => [(k, v)]
  | (k2, v2) :: rest, k, v =>
      if k2 = k then (k2, v) :: rest else (k2, v2) :: aset rest k v

/-! ## Metadata cache (repo_metadata_cache.py)

Timestamps are embedded as integers; the cache document is embedded with
its decoded typed shape (org/repo keyed entries carrying a timestamp and
a value), matching what get_repo_meta / get_ref_sha read and what
set_repo_meta / set_ref_sha write. -/

structure ParentMeta where
  defaultBranch : Option String := none
deriving Repr, DecidableEq

structure RepoMeta where
  archived : Bool := false
  disabled : Bool := false
  fork : Bool := true
  parent : Option ParentMeta := none
  defaultBranch : Option String := none
deriving Repr, DecidableEq

structure RefEntry where
  ts : Int
  sha : String
deriving Repr, DecidableEq

structure RepoCacheData where
  meta : Option (Int × RepoMeta) := none
  refs : List (String × RefEntry) := []
deriving Repr, DecidableEq

structure Cache where
  repos : List ((String × String) × RepoCacheData) := []
deriving Repr, DecidableEq

/-- Source: repo_metadata_cache._is_fresh: a missing timestamp or a
non-positive ttl is never fresh; otherwise fresh iff now - ts is at most
ttl. -/
def is_fresh (now : Int) (ts : Option Int) (ttl : Int) : Bool :=
  match ts with
  | none => false
  | some t => if ttl ≤ 0 then false else decide (now - t ≤ ttl)

def repo_cache (c : Cache) (org repo : String) : RepoCacheData :=
  (alookup c.repos (org, repo)).getD {}

/-- Source: repo_metadata_cache.get_ref_sha. -/
def get_ref_sha (c : Cache) (org repo ref : String) (ttl now : Int) : Option String :=
  match alookup (repo_cache c org repo).refs ref with
  | none => none
  | some e => if is_fresh now (some e.ts) ttl then some e.sha else none

/-- Source: repo_metadata_cache.set_ref_sha. -/
def set_ref_sha (c : Cache) (org repo ref sha : String) (now : Int) : Cache :=
  let rc := repo_cache c org repo
  { repos := aset c.repos (org, repo) { rc with refs := aset rc.refs ref ⟨now, sha⟩ } }

/-- Source: repo_metadata_cache.get_repo_meta. -/
def get_repo_meta (c : Cache) (org repo : String) (ttl now : Int) : Option RepoMeta :=
  match (repo_cache c org repo).meta with
  | none => none
  | some e => if is_fresh now (some e.1) ttl then some e.2 else none

/-- Source: repo_metadata_cache.set_repo_meta. -/
def set_repo_meta (c : Cache) (org repo : String) (m : RepoMeta) (now : Int) : Cache :=
  let rc := repo_cache c org repo
  { repos := aset c.repos (org, repo) { rc with meta := some (now, m) } }

/-! ## Hosting API model

One repository's server-side state: its commit graph (sha, list of
parent shas), its branch refs, its issue tracker, and the behaviour
knobs fixed by the spec at the interface boundary: the upstream head
that a successful merge-upstream lands the mirror on, an error outcome
for merge-upstream, injected API failures for the metadata and compare
endpoints, whether the host rejects non-forced ref updates, and whether
issues are disabled (410). -/

structure Issue where
  number : Nat
  title : String
  body : String
  state : String
  comments : List String
deriving Repr, DecidableEq

structure Host where
  commits : List (String × List String)
  branches : List (String × String)
  issues : List Issue := []
  nextIssue : Nat := 1
  repoMeta : RepoMeta := {}
  upstream : Option String := none
  mergeUpstreamError : Option Nat := none
  repoMetaError : Option Nat := none
  compareError : Option Nat := none
  rejectNonFF : Bool := false
  issuesDisabled : Bool := false
deriving Repr, DecidableEq

def parents_of (commits : List (String × List String)) (sha : String) : List String :=
  (alookup commits sha).getD []

/-- Reachability in the commit graph along parent edges (a is an
ancestor of b, allowing a = b), computed with fuel bounded by the graph
size. -/
def is_ancestor_fuel (commits : List (String × List String)) : Nat → String → String → Bool
  | 0, _, _ => false
  | n + 1, a, b => a = b || (parents_of commits b).any (fun p => is_ancestor_fuel commits n a p)

def is_ancestor (commits : List (String × List String)) (a b : String) : Bool :=
  is_ancestor_fuel commits (commits.length + 1) a b

/-- Resolve a committish the way the compare endpoint does: a branch
name resolves to its head sha, otherwise a known commit sha resolves to
itself. -/
def resolve (h : Host) (s : String) : Option String :=
  match alookup h.branches s with
  | some sha => some sha
  | none => if (alookup h.commits s).isSome then some s else none

structure CompareData where
  status : String
  commits : List String
  aheadBy : Nat
  behindBy : Nat
deriving Repr, DecidableEq

def all_shas (h : Host) : List String := h.commits.map Prod.fst

/-- Host-side compare of two resolved shas, per the interface contract
of spec section 4.4: identical when equal, behind when the base is a
strict ancestor of the head, ahead when the head is a strict ancestor of
the base, diverged otherwise.  The commits field lists the commits
reachable from the head but not the base, ending at the head commit,
as the compare payload's chronological commit list does. -/
def compare_shas (h : Host) (b hd : String) : CompareData :=
  if b = hd then ⟨"identical", [], 0, 0⟩
  else
    let fwd := (all_shas h).filter
      (fun c => is_ancestor h.commits c hd && !(is_ancestor h.commits c b))
    let back := (all_shas h).filter
      (fun c => is_ancestor h.commits c b && !(is_ancestor h.commits c hd))
    let cl := if fwd.isEmpty then [] else fwd.filter (fun c => c ≠ hd) ++ [hd]
    if is_ancestor h.commits b hd then ⟨"behind", cl, fwd.length, 0⟩
    else if is_ancestor h.commits hd b then ⟨"ahead", cl, 0, back.length⟩
    else ⟨"diverged", cl, fwd.length, back.length⟩

/-! ## The orchestrator monad

API failures are Python GitHubApiError exceptions; the monad passes the
run state (host, cache, clock, and a log of attempted ref mutations)
explicitly and propagates errors, preserving the state mutated so far,
exactly as Python exceptions unwind past already-performed side
effects. -/

structure ApiErr where
  status : Nat
  msg : String
deriving Repr, DecidableEq

inductive RefMutation where
  | patchAttempt (ref sha : String) (force : Bool)
  | createAttempt (ref sha : String)
deriving Repr, DecidableEq

structure St where
  host : Host
  cache : Cache
  now : Int
  trace : List RefMutation := []
deriving Repr, DecidableEq

def M (α : Type) : Type := St → Except ApiErr α × St

def mpure {α : Type} (a : α) : M α := fun s => (.ok a, s)

def mbind {α β : Type} (x : M α) (f : α → M β) : M β := fun s =>
  match x s with
  | (.ok a, s2) => f a s2
  | (.error e, s2) => (.error e, s2)

instance : Monad M where
  pure := mpure
  bind := mbind

/-- Python try/except GitHubApiError: run the body; on an error, resume
the handler from the state reached when the error was raised. -/
def mtry {α : Type} (x : M α) (hnd : ApiErr → M α) : M α := fun s =>
  match x s with
  | (.ok a, s2) => (.ok a, s2)
  | (.error e, s2) => hnd e s2

def mthrow {α : Type} (e : ApiErr) : M α := fun s => (.error e, s)

def mget : M St := fun s => (.ok s, s)

def mset (s2 : St) : M Unit := fun _ => (.ok (), s2)

def mmodify (f : St → St) : M Unit := fun s => (.ok (), f s)

/-! ## API operations

Each operation embeds one endpoint access made by the scripts, with the
host behaviour the spec fixes at the boundary. -/

/-- GET /repos/org/name, as read in process_repo (metadata fetch); the
repoMetaError knob injects an ApiError for this endpoint. -/
def api_get_repo_meta : M RepoMeta := do
  let st ← mget
  match st.host.repoMetaError with
  | some c => mthrow ⟨c, "metadata error"⟩
  | none => pure st.host.repoMeta

/-- Source: orchestrator._ref_sha — GET /git/ref/heads/ref, raising 404
when the branch does not exist. -/
def ref_sha (ref : String) : M String := do
  let st ← mget
  match alookup st.host.branches ref with
  | some sha => pure sha
  | none => mthrow ⟨404, "Not Found"⟩

/-- Source: orchestrator._ref_sha_optional (and the identical
ensure_branches._get_ref_sha): 404 becomes None, everything else
re-raises. -/
def ref_sha_optional (ref : String) : M (Option String) :=
  mtry (do pure (some (← ref_sha ref)))
    (fun e => if e.status = 404 then pure none else mthrow e)

/-- Python truthiness of an optional string (None and the empty string
are falsy). -/
def str_truthy : Option String → Bool
  | some s => !(s = "")
  | none => false

/-- Python a or b for an optional string: falls to b when a is None or
empty. -/
def str_or (a : Option String) (b : String) : String :=
  match a with
  | some s => if s = "" then b else s
  | none => b

/-- The parent's default branch when it is a nonempty string, as read
by _select_mirror_branch. -/
def mirror_candidate (meta : RepoMeta) : Option String :=
  match meta.parent with
  | some p =>
      match p.defaultBranch with
      | some pd => if pd ≠ "" then some pd else none
      | none => none
  | none => none

/-- The repository's own default branch when it is a nonempty string. -/
def own_default (meta : RepoMeta) : Option String :=
  match meta.defaultBranch with
  | some rd => if rd ≠ "" then some rd else none
  | none => none

/-- The main/master tail of _select_mirror_branch's candidate chain. -/
def select_mirror_main_master : M String := do
  if str_truthy (← ref_sha_optional "main") then pure "main"
  else if str_truthy (← ref_sha_optional "master") then pure "master"
  else mthrow ⟨404, "Missing mirror branch (default/main/master)"⟩

/-- The own-default-branch step of _select_mirror_branch's chain. -/
def select_mirror_default (meta : RepoMeta) : M String := do
  match own_default meta with
  | some rd =>
      if str_truthy (← ref_sha_optional rd) then pure rd
      else select_mirror_main_master
  | none => select_mirror_main_master

/-- Source: orchestrator._select_mirror_branch — prefer the parent's
default branch when it resolves in the fork, then the fork's own
default branch, then main, then master; 404 when none resolve. -/
def select_mirror_branch (meta : RepoMeta) : M String := do
  match mirror_candidate meta with
  | some pd =>
      if str_truthy (← ref_sha_optional pd) then pure pd
      else select_mirror_default meta
  | none => select_mirror_default meta

/-- Source: orchestrator._parent_sha — GET /git/commits/sha; the first
parent's sha when the commit has a truthy one, else None. -/
def parent_sha (sha : String) : M (Option String) := do
  let st ← mget
  match alookup st.host.commits sha with
  | none => mthrow ⟨404, "Not Found"⟩
  | some ps =>
    match ps with
    | [] => pure none
    | p :: _ => if p ≠ "" then pure (some p) else pure none

/-- PATCH /git/refs/heads/ref with a force flag.  The attempt is logged,
then the host accepts a forced update unconditionally and a non-forced
update only as a fast-forward (current head an ancestor of the new sha)
and only when the rejectNonFF knob is off; a missing ref or unknown
target sha is a 422. -/
def patch_ref (ref sha : String) (force : Bool) : M Unit := do
  mmodify (fun st => { st with trace := st.trace ++ [.patchAttempt ref sha force] })
  let st ← mget
  match alookup st.host.branches ref with
  | none => mthrow ⟨422, "Reference does not exist"⟩
  | some cur =>
    if (alookup st.host.commits sha).isNone then
      mthrow ⟨422, "Object does not exist"⟩
    else if force then
      mset { st with host := { st.host with branches := aset st.host.branches ref sha } }
    else if st.host.rejectNonFF then
      mthrow ⟨422, "Update is not a fast forward"⟩
    else if is_ancestor st.host.commits cur sha then
      mset { st with host := { st.host with branches := aset st.host.branches ref sha } }
    else
      mthrow ⟨422, "Update is not a fast forward"⟩

/-- Source: promote_ff_only.ff_update — non-forced ref update. -/
def ff_update (ref sha : String) : M Unit := patch_ref ref sha false

/-- Source: orchestrator._force_update — forced ref update. -/
def force_update (ref sha : String) : M Unit := patch_ref ref sha true

/-- POST /git/refs: create a ref; 422 when it already exists or the sha
is unknown. -/
def create_ref (ref sha : String) : M Unit := do
  mmodify (fun st => { st with trace := st.trace ++ [.createAttempt ref sha] })
  let st ← mget
  if (alookup st.host.branches ref).isSome then
    mthrow ⟨422, "Reference already exists"⟩
  else if (alookup st.host.commits sha).isNone then
    mthrow ⟨422, "Object does not exist"⟩
  else
    mset { st with host := { st.host with branches := (ref, sha) :: st.host.branches } }

structure EnsureResult where
  status : String
  sha : String
deriving Repr, DecidableEq

/-- Source: ensure_branches.ensure_branch — create-only: an existing
(truthy) sha is returned untouched, otherwise the ref is created at
base_sha. -/
def ensure_branch (ref base_sha : String) : M EnsureResult := do
  let existing ← ref_sha_optional ref
  if str_truthy existing then
    pure ⟨"exists", existing.getD ""⟩
  else do
    create_ref ref base_sha
    pure ⟨"created", base_sha⟩

/-- Source: promote_ff_only.compare_refs — GET /compare/base...head;
the compareError knob injects an ApiError for this endpoint. -/
def compare_refs (base head : String) : M CompareData := do
  let st ← mget
  match st.host.compareError with
  | some c => mthrow ⟨c, "compare error"⟩
  | none =>
    match resolve st.host base, resolve st.host head with
    | some b, some hd => pure (compare_shas st.host b hd)
    | _, _ => mthrow ⟨404, "Not Found"⟩

structure SyncResult where
  status : String
  code : Option Nat := none
  message : Option String := none
deriving Repr, DecidableEq

/-- Source: sync_mirror.sync_mirror — POST /merge-upstream; an API error
is caught and returned as an error-status result (never raised); on
success the host lands the mirror branch on the upstream head when one
is configured. -/
def sync_mirror (branch : String) : M SyncResult := do
  let st ← mget
  match st.host.mergeUpstreamError with
  | some c => pure ⟨"error", some c, some "merge upstream failed"⟩
  | none =>
    match st.host.upstream with
    | some u => do
        mset { st with host := { st.host with branches := aset st.host.branches branch u } }
        pure ⟨"ok", none, some "ok"⟩
    | none => pure ⟨"ok", none, some "ok"⟩

/-! ## Issues (issues.py) -/

def open_titled (issues : List Issue) (title : String) : List Issue :=
  (issues.filter (fun i => i.state = "open")).filter (fun i => i.title = title)

/-- Source: issues._find_open_issue — first open issue with an exact
title match; listing issues fails with 410 when issues are disabled. -/
def find_open_issue (title : String) : M (Option Issue) := do
  let st ← mget
  if st.host.issuesDisabled then mthrow ⟨410, "Issues are disabled"⟩
  else pure ((st.host.issues.filter (fun i => i.state = "open")).find? (fun i => i.title = title))

def patch_body_l (issues : List Issue) (num : Nat) (body : String) : List Issue :=
  issues.map (fun i => if i.number = num then { i with body := body } else i)

def add_comment_l (issues : List Issue) (num : Nat) (c : String) : List Issue :=
  issues.map (fun i => if i.number = num then { i with comments := i.comments ++ [c] } else i)

/-- PATCH /issues/num with a new body. -/
def patch_issue_body (num : Nat) (body : String) : M Unit := do
  let st ← mget
  if st.host.issuesDisabled then mthrow ⟨410, "Issues are disabled"⟩
  else mset { st with host := { st.host with issues := patch_body_l st.host.issues num body } }

/-- POST /issues/num/comments. -/
def post_issue_comment (num : Nat) (c : String) : M Unit := do
  let st ← mget
  if st.host.issuesDisabled then mthrow ⟨410, "Issues are disabled"⟩
  else mset { st with host := { st.host with issues := add_comment_l st.host.issues num c } }

/-- POST /issues: create an open issue, returning its number. -/
def create_issue (title body : String) : M Nat := do
  let st ← mget
  if st.host.issuesDisabled then mthrow ⟨410, "Issues are disabled"⟩
  else do
    let n := st.host.nextIssue
    mset { st with host := { st.host with
      issues := st.host.issues ++ [⟨n, title, body, "open", []⟩],
      nextIssue := n + 1 } }
    pure n

structure IssueAction where
  action : String
  number : Option Nat := none
deriving Repr, DecidableEq

/-- Source: issues.create_or_update_issue — search for an exact-title
open issue; patch its body and append the comment when found, else
create; a 410 anywhere inside is downgraded to a skipped action, any
other failure re-raises. -/
def create_or_update_issue (title body : String) (comment : Option String) : M IssueAction :=
  mtry
    (do
      let existing ← find_open_issue title
      match existing with
      | some iss => do
          patch_issue_body iss.number body
          match comment with
          | some c => post_issue_comment iss.number c
          | none => pure ()
          pure ⟨"updated", some iss.number⟩
      | none => do
          let n ← create_issue title body
          pure ⟨"created", some n⟩)
    (fun e => if e.status = 410 then pure ⟨"skipped", none⟩ else mthrow e)

/-! ## Orchestrator (orchestrator.py) -/

/-- Source: orchestrator._compare_status. -/
def compare_status (c : CompareData) : String :=
  if c.status = "behind" then "behind"
  else if c.status = "ahead" then "ahead"
  else if c.status = "identical" then "identical"
  else if c.status = "diverged" then "diverged"
  else if c.status = "" then "unknown"
  else c.status

/-- Source: orchestrator._head_sha — last sha of the compare commit
list when present and truthy, else the fallback. -/
def head_sha (c : CompareData) (fallback : String) : String :=
  match c.commits.getLast? with
  | some s => if s ≠ "" then s else fallback
  | none => fallback

/-- Source: orchestrator._issue_body. -/
def issue_body (title details : String) : String :=
  title ++ "\n\nDetails:\n" ++ details ++
    "\n\nThis issue was created by the org fork orchestrator. " ++
    "Resolve the divergence manually, then re-run the workflow."

/-- Source: orchestrator._comment_body. -/
def comment_body (run_id details : String) : String :=
  "Run " ++ run_id ++ " update:\n\n" ++ details

/-- Source: orchestrator._format_issue_action. -/
def format_issue_action : Option IssueAction → String
  | none => "none"
  | some a =>
      a.action ++ " #" ++ (match a.number with
        | some n => toString n
        | none => "None")

/-- The cache-or-API ref read repeated through process_repo: consult
get_ref_sha, on a miss fetch via the API and store the result. -/
def cached_ref_sha (org name ref : String) (ttl : Int) : M String := do
  let st ← mget
  match get_ref_sha st.cache org name ref ttl st.now with
  | some s => pure s
  | none => do
      let s ← ref_sha ref
      mmodify (fun st2 => { st2 with cache := set_ref_sha st2.cache org name ref s st2.now })
      pure s

/-- The cache-or-API metadata read at the top of process_repo. -/
def cached_repo_meta (org name : String) (ttl : Int) : M RepoMeta := do
  let st ← mget
  match get_repo_meta st.cache org name ttl st.now with
  | some m => pure m
  | none => do
      let m ← api_get_repo_meta
      mmodify (fun st2 => { st2 with cache := set_repo_meta st2.cache org name m st2.now })
      pure m

structure Config where
  org : String
  product_ref : String
  staging_ref : String
  snapshot_ref : String
  feature_ref : String
deriving Repr, DecidableEq

structure BootstrapOut where
  product_result : EnsureResult
  staging_result : EnsureResult
  snapshot_result : EnsureResult
  feature_result : EnsureResult
  product_sha_before : String
deriving Repr, DecidableEq

/-- Source: orchestrator.process_repo step 2 (ensure branches exist,
create-only), the body of the try at lines 242-254: product from the
mirror sha, staging and feature from product's pre-promotion sha,
snapshot from staging's sha, with the cache-or-API reads in between. -/
def bootstrap_branches (org name product staging snapshot feature mirror_sha : String)
    (ttl : Int) : M BootstrapOut := do
  let pr ← ensure_branch product mirror_sha
  let product_sha_before ← cached_ref_sha org name product ttl
  let sr ← ensure_branch staging product_sha_before
  let staging_sha ← cached_ref_sha org name staging ttl
  let nr ← ensure_branch snapshot staging_sha
  let fr ← ensure_branch feature product_sha_before
  pure ⟨pr, sr, nr, fr, product_sha_before⟩

/-- One entry of the presence audit (process_repo lines 277-293): a 404
is recorded as missing, any other API error as an error code, neither
is raised. -/
def presence_of (org name : String) (ttl : Int) (label ref : String) : M (String × String) :=
  mtry
    (do
      let _ ← cached_ref_sha org name ref ttl
      pure (label, "present"))
    (fun e =>
      if e.status = 404 then pure (label, "missing")
      else pure (label, "error (" ++ toString e.status ++ ")"))

/-- Source: process_repo step 3 (lines 297-311) — enforce product ==
mirror: identical is a no-op; behind attempts a non-forced update to the
compare head (falling back to the cached mirror sha), and on rejection
falls back to a forced update to the cached mirror sha; any other status
is a forced update to the cached mirror sha. -/
def enforce_product (product mirror mirror_sha : String) : M String := do
  let compare_pm ← compare_refs product mirror
  let status_pm := compare_status compare_pm
  if status_pm = "identical" then
    pure "up_to_date"
  else if status_pm = "behind" then
    mtry
      (do
        ff_update product (head_sha compare_pm mirror_sha)
        pure "fast-forwarded")
      (fun _e => do
        force_update product mirror_sha
        pure "reset (ff failed)")
  else do
    force_update product mirror_sha
    pure ("reset (" ++ status_pm ++ ")")

/-- Source: the two identical promotion blocks of process_repo step 4
(lines 326-346 for staging, 348-357 for feature): compare against the
downstream target, fast-forward when behind (with no forced fallback and
no exception guard), force-reset otherwise.  Returns the recorded action
and the compare status. -/
def promote_branch (branch target : String) : M (String × String) := do
  let cmp ← compare_refs branch target
  let status := compare_status cmp
  if status = "identical" then
    pure ("already at target", status)
  else if status = "behind" then do
    ff_update branch (head_sha cmp target)
    pure ("fast-forwarded to target", status)
  else do
    force_update branch target
    pure ("reset to target (" ++ status ++ ")", status)

structure RepoResult where
  name : Option String
  notes : List String := []
  mirror_branch : Option String := none
  mirror_sync : Option String := none
  issue : Option String := none
  branch_bootstrap : Option String := none
  bootstrap_results : Option BootstrapOut := none
  presence : List (String × String) := []
  product_merge : Option String := none
  product_changed : Option String := none
  downstream_target : Option String := none
  staging_promo : Option String := none
  feature_promo : Option String := none
  snapshot_promo : Option String := none
  staging_compare_status : Option String := none
deriving Repr, DecidableEq

/-- Source: process_repo step 4 (lines 313-361): re-read product through
the cache, detect a change against the pre-bootstrap sha, and when
changed promote staging and feature to the parent of product's new sha
(falling back to product's sha for a root commit). -/
def promote_phase (org name product staging feature : String) (ttl : Int)
    (product_sha_before : String) (r : RepoResult) : M RepoResult := do
  let product_sha_after ← cached_ref_sha org name product ttl
  let changed := product_sha_after ≠ product_sha_before
  let r := { r with product_changed := some (if changed then "yes" else "no") }
  if changed then do
    let psha ← parent_sha product_sha_after
    let downstream_target := str_or psha product_sha_after
    let dt := if str_truthy psha then "parent" else "product (no parent)"
    let r := { r with downstream_target := some dt }
    let sres ← promote_branch staging downstream_target
    let fres ← promote_branch feature downstream_target
    pure { r with
      staging_promo := some sres.1,
      feature_promo := some fres.1,
      staging_compare_status := some sres.2 }
  else
    pure { r with
      staging_promo := some "skipped (no product change)",
      feature_promo := some "skipped (no product change)",
      staging_compare_status := some "skipped" }

/-- Source: orchestrator.process_repo, the per-repository state machine:
gate on metadata, select the mirror, sync the mirror, bootstrap, audit
presence, enforce product == mirror, promote downstream, record the
snapshot policy.  Early exits return a result carrying a Skipped note;
only the guarded phases catch API errors. -/
def process_repo (cfg : Config) (repoName : Option String) (run_id : String) (ttl : Int) :
    M RepoResult := do
  let org := cfg.org
  match repoName with
  | none => pure { name := none, notes := ["Skipped: missing repo name"] }
  | some name => do
    let metaOrErr : Sum RepoMeta Nat ←
      mtry (do pure (Sum.inl (← cached_repo_meta org name ttl)))
        (fun e => pure (Sum.inr e.status))
    match metaOrErr with
    | .inr c =>
        pure { name := some name,
               notes := ["Skipped: failed to fetch repo metadata (" ++ toString c ++ ")"] }
    | .inl repo_details =>
      if repo_details.archived || repo_details.disabled then
        pure { name := some name, notes := ["Skipped: archived or disabled"] }
      else if !repo_details.fork || repo_details.parent.isNone then
        pure { name := some name, notes := ["Skipped: not a fork or missing upstream"] }
      else do
        let mirrorOrErr : Sum String Nat ←
          mtry (do pure (Sum.inl (← select_mirror_branch repo_details)))
            (fun e => pure (Sum.inr e.status))
        match mirrorOrErr with
        | .inr c =>
            pure { name := some name,
                   notes := ["Skipped: missing mirror branch (" ++ toString c ++ ")"] }
        | .inl mirror => do
          let r0 : RepoResult := { name := some name, mirror_branch := some mirror }
          let ms ← sync_mirror mirror
          if ms.status ≠ "ok" then do
            let det := "merge upstream failed"
            let iss ← create_or_update_issue "[automation] mirror sync failed"
              (issue_body "Mirror sync failed" det) (some (comment_body run_id det))
            pure { r0 with
              mirror_sync := some ("error (" ++
                (match ms.code with | some c => toString c | none => "None") ++ ")"),
              issue := some (format_issue_action (some iss)),
              notes := ["Skipped: mirror sync failed"] }
          else do
            let r1 := { r0 with mirror_sync := some (ms.message.getD "ok") }
            let mirrorShaOrErr : Sum String ApiErr ←
              mtry (do pure (Sum.inl (← cached_ref_sha org name mirror ttl)))
                (fun e => pure (Sum.inr e))
            match mirrorShaOrErr with
            | .inr e => do
                let iss ← create_or_update_issue "[automation] branch bootstrap failed"
                  (issue_body "Failed to read mirror ref" e.msg)
                  (some (comment_body run_id e.msg))
                pure { r1 with
                  branch_bootstrap := some "error",
                  issue := some (format_issue_action (some iss)),
                  notes := ["Skipped: failed to read mirror ref"] }
            | .inl mirror_sha => do
              let bootOrErr : Sum BootstrapOut ApiErr ←
                mtry (do pure (Sum.inl (← bootstrap_branches org name cfg.product_ref
                    cfg.staging_ref cfg.snapshot_ref cfg.feature_ref mirror_sha ttl)))
                  (fun e => pure (Sum.inr e))
              match bootOrErr with
              | .inr e => do
                  let iss ← create_or_update_issue "[automation] branch bootstrap failed"
                    (issue_body "Branch bootstrap failed" e.msg)
                    (some (comment_body run_id e.msg))
                  pure { r1 with
                    branch_bootstrap := some "error",
                    issue := some (format_issue_action (some iss)),
                    notes := ["Skipped: branch bootstrap failed"] }
              | .inl boot => do
                  let r2 := { r1 with
                    branch_bootstrap := some "ok",
                    bootstrap_results := some boot }
                  let p1 ← presence_of org name ttl "product" cfg.product_ref
                  let p2 ← presence_of org name ttl "staging" cfg.staging_ref
                  let p3 ← presence_of org name ttl "snapshot" cfg.snapshot_ref
                  let p4 ← presence_of org name ttl "feature" cfg.feature_ref
                  let r3 := { r2 with presence := [p1, p2, p3, p4] }
                  let pm ← enforce_product cfg.product_ref mirror mirror_sha
                  let r4 := { r3 with product_merge := some pm }
                  let r5 ← promote_phase org name cfg.product_ref cfg.staging_ref
                    cfg.feature_ref ttl boot.product_sha_before r4
                  pure { r5 with snapshot_promo := some "unchanged (create-once policy)" }

/-- Source: the per-repo loop of orchestrator.main (lines 395-397),
which has no exception guard: an error raised by process_repo aborts the
remaining repositories. -/
def run_repos (cfg : Config) (repos : List (Option String)) (run_id : String) (ttl : Int) :
    M (List RepoResult) := do
  match repos with
  | [] => pure []
  | r :: rest => do
      let res ← process_repo cfg r run_id ttl
      let more ← run_repos cfg rest run_id ttl
      pure (res :: more)

/-! ## HTTP retry client (github_api.py)

The network is a script assigning an outcome to each attempt number; the
retry loop of GitHubApi._request_with_retry is a recursion over the
5-attempt budget that records every back-off sleep it performs. -/

structure HttpResp where
  status : Nat
  headers : List (String × String)
  message : String := ""
deriving Repr, DecidableEq

inductive NetEvent where
  | success (r : HttpResp)
  | httpError (r : HttpResp)
  | urlError
deriving Repr, DecidableEq

def parse_nat_digits (l : List Char) : Option Nat :=
  match l with
  | [] => none
  | _ =>
    if l.all (fun c => c.isDigit) then
      some (l.foldl (fun acc c => acc * 10 + (c.toNat - 48)) 0)
    else none

/-- Python int(s) on a header value, with ValueError embedded as none
(decimal digits with an optional leading minus sign). -/
def parse_int (s : String) : Option Int :=
  match s.data with
  | '-' :: rest => (parse_nat_digits rest).map (fun n => -(n : Int))
  | ds => (parse_nat_digits ds).map (fun n => (n : Int))

/-- Python a or b over optional header strings: a missing or empty first
value falls to the second. -/
def opt_str_or (a b : Option String) : Option String :=
  match a with
  | some s => if s = "" then b else some s
  | none => b

/-- Source: GitHubApi._retry_after_seconds — Retry-After when it parses
(None on a parse failure), else the seconds until X-RateLimit-Reset
clamped below at 0, else None. -/
def retry_after_seconds (headers : List (String × String)) (now : Int) : Option Int :=
  match opt_str_or (alookup headers "Retry-After") (alookup headers "retry-after") with
  | some ra => parse_int ra
  | none =>
    match opt_str_or (alookup headers "X-RateLimit-Reset") (alookup headers "x-ratelimit-reset") with
    | some rs =>
        match parse_int rs with
        | some n => some (max 0 (n - now))
        | none => none
    | none => none

/-- The exponential fallback sleep min(2 ^ attempt, 20). -/
def backoff_wait (attempt : Nat) : Int := min (2 ^ attempt) 20

/-- The sleep chosen before a retry of a retryable HTTP status: the
header-derived wait when it is a nonzero integer (Python or-truthiness),
else the exponential fallback. -/
def wait_for (headers : List (String × String)) (now : Int) (attempt : Nat) : Int :=
  match retry_after_seconds headers now with
  | some n => if n = 0 then backoff_wait attempt else n
  | none => backoff_wait attempt

def retryable_statuses : List Nat := [403, 429, 500, 502, 503, 504]

/-- Source: the loop body of GitHubApi._request_with_retry, with fuel
counting the attempts left out of the budget of 5; fuel 0 corresponds to
the loop falling through, which raises status 0 with the retry-limit
message.  The returned list records the sleeps performed in order. -/
def request_with_retry_go (now : Int) (net : Nat → NetEvent) :
    Nat → Nat → List Int → Except ApiErr HttpResp × List Int
  | 0, _, sleeps => (.error ⟨0, "GitHub API retry limit exceeded"⟩, sleeps)
  | fuel + 1, attempt, sleeps =>
    match net attempt with
    | .success r => (.ok r, sleeps)
    | .httpError r =>
        if retryable_statuses.contains r.status then
          request_with_retry_go now net fuel (attempt + 1)
            (sleeps ++ [wait_for r.headers now attempt])
        else
          (.error ⟨r.status, if r.message = "" then "GitHub API error" else r.message⟩, sleeps)
    | .urlError =>
        if fuel = 0 then (.error ⟨0, "Network error"⟩, sleeps)
        else request_with_retry_go now net fuel (attempt + 1) (sleeps ++ [backoff_wait attempt])

/-- Source: GitHubApi._request_with_retry with max_attempts = 5. -/
def request_with_retry (now : Int) (net : Nat → NetEvent) :
    Except ApiErr HttpResp × List Int :=
  request_with_retry_go now net 5 1 []

/-! ## Pagination (GitHubApi.paginate)

The server is a finite list of pages; requesting a page number past the
end answers an empty list with no headers, as the live API does past the
last page.  The embedding consumes the suffix of the page list, with the
page counter kept for the logged query of each request. -/

structure Page where
  items : List String
  headers : List (String × String)
deriving Repr, DecidableEq

def next_rel : String := "rel=\"next\""

def starts_with {α : Type} [DecidableEq α] : List α → List α → Bool
  | [], _ => true
  | _ :: _, [] => false
  | a :: as, b :: bs => a = b && starts_with as bs

def contains_sub {α : Type} [DecidableEq α] (pat : List α) : List α → Bool
  | [] => starts_with pat []
  | b :: bs => starts_with pat (b :: bs) || contains_sub pat bs

/-- Python substring containment (sub in s). -/
def str_contains (s sub : String) : Bool := contains_sub sub.data s.data

/-- Python k.lower() == link, with the lowering done characterwise. -/
def lower_is_link (s : String) : Bool := s.data.map Char.toLower = "link".data

/-- The lowered-key membership test of paginate (link in lowered keys). -/
def has_link_key (hs : List (String × String)) : Bool :=
  hs.any (fun p => lower_is_link p.1)

/-- The case-sensitive header reads headers.get(Link) or
headers.get(link) of paginate, with Python or-truthiness. -/
def link_value (hs : List (String × String)) : Option String :=
  opt_str_or (alookup hs "Link") (alookup hs "link")

/-- The query dict sent for one page: the caller's query updated with
per_page 100 and the page number. -/
def mk_query (base : List (String × String)) (page : Nat) : List (String × String) :=
  aset (aset base "per_page" "100") "page" (toString page)

/-- Source: the while-loop of GitHubApi.paginate.  Yields the page's
items, then breaks on an empty page, on a missing link header key (any
capitalization), or on a truthy (nonempty) Link/link header value
without the next relation; a missing or empty (falsy) link value does
not break — the Python guard is if link and the relation is absent —
so iteration requests the following page. -/
def paginate_go (base : List (String × String)) :
    List Page → Nat → List String × List (List (String × String))
  | [], page => ([], [mk_query base page])
  | resp :: rest, page =>
    let q := mk_query base page
    if resp.items.isEmpty then ([], [q])
    else if !(has_link_key resp.headers) then (resp.items, [q])
    else
      match link_value resp.headers with
      | some l =>
          if l ≠ "" && !(str_contains l next_rel) then (resp.items, [q])
          else
            let r := paginate_go base rest (page + 1)
            (resp.items ++ r.1, q :: r.2)
      | none =>
          let r := paginate_go base rest (page + 1)
          (resp.items ++ r.1, q :: r.2)

/-- Source: GitHubApi.paginate, started at page 1.  Returns the yielded
items and the log of the queries it requested. -/
def paginate (server : List Page) (base : List (String × String)) :
    List String × List (List (String × String)) :=
  paginate_go base server 1

/-! ## Cache file loading (repo_metadata_cache._load_json)

The file system is abstracted to the states _load_json can observe: a
missing file, or a present file of a given byte size whose read has one
of four outcomes.  The outcomes mirror the Python exception classes: an
OSError or a json.JSONDecodeError is caught by the except clause, while
a UnicodeDecodeError (raised when the bytes are not valid UTF-8, a
sibling of JSONDecodeError under ValueError) is not in the caught set
and propagates. -/

inductive JVal where
  | jnull
  | jbool (b : Bool)
  | jnum (n : Int)
  | jstr (s : String)
  | jarr (xs : List JVal)
  | jobj (fields : List (String × JVal))

inductive ReadOutcome where
  | ok (v : JVal)
  | osError
  | jsonDecodeError
  | unicodeDecodeError

inductive FileState where
  | missing
  | present (size : Nat) (read : ReadOutcome)

inductive PyExc where
  | unicodeDecodeError
deriving Repr, DecidableEq

def MAX_CACHE_BYTES : Nat := 10 * 1024 * 1024

def fresh_cache_doc : JVal := .jobj [("version", .jnum 1), ("orgs", .jobj [])]

def is_version_1 : Option JVal → Bool
  | some (.jnum n) => n = 1
  | _ => false

def is_jobj : Option JVal → Bool
  | some (.jobj _) => true
  | _ => false

/-- Source: repo_metadata_cache._load_json — a missing file, an
oversized file, a caught read error, a non-dict document or a document
with the wrong version yield the fresh empty cache; a valid document has
its orgs field coerced to a dict; an uncaught UnicodeDecodeError
escapes. -/
def load_json (f : FileState) : Except PyExc JVal :=
  match f with
  | .missing => .ok fresh_cache_doc
  | .present size read =>
    if size > MAX_CACHE_BYTES then .ok fresh_cache_doc
    else
      match read with
      | .osError => .ok fresh_cache_doc
      | .jsonDecodeError => .ok fresh_cache_doc
      | .unicodeDecodeError => .error .unicodeDecodeError
      | .ok data =>
        match data with
        | .jobj fields =>
          if is_version_1 (alookup fields "version") then
            if is_jobj (alookup fields "orgs") then .ok (.jobj fields)
            else .ok (.jobj (aset fields "orgs" (.jobj [])))
          else .ok fresh_cache_doc
        | _ => .ok fresh_cache_doc

/-- Source: repo_metadata_cache.load_cache, which delegates to
_load_json. -/
def load_cache (f : FileState) : Except PyExc JVal := load_json f

/-! ## Concrete run states used by witnesses and counterexamples -/

def cfg0 : Config := ⟨"org", "x/product", "x/staging", "x/snapshot", "x/feature"⟩

def meta_fork_main : RepoMeta := { fork := true, parent := some ⟨some "main"⟩ }

/-- Linear history A, B, C with every managed branch at A and the
upstream head at C: a plain upstream advance. -/
def linear_host : Host :=
  { commits := [("A", []), ("B", ["A"]), ("C", ["B"])],
    branches := [("main", "A"), ("x/product", "A"), ("x/staging", "A"),
                 ("x/snapshot", "A"), ("x/feature", "A")],
    repoMeta := meta_fork_main,
    upstream := some "C" }

def linear_st : St := { host := linear_host, cache := {}, now := 0 }

/-- Diverged history: A is the root, B and C are both children of A;
product carries the local commit C while the upstream head is B. -/
def diverged_host : Host :=
  { commits := [("A", []), ("B", ["A"]), ("C", ["A"])],
    branches := [("main", "A"), ("x/product", "C"), ("x/staging", "A"),
                 ("x/snapshot", "A"), ("x/feature", "A")],
    repoMeta := meta_fork_main,
    upstream := some "B" }

/-- A cache file surviving from an earlier run within the ttl window: it
still records sha A for the mirror branch. -/
def stale_mirror_cache : Cache :=
  { repos := [(("org", "r1"), { refs := [("main", ⟨0, "A"⟩)] })] }

def stale_cache_st : St :=
  { host := diverged_host, cache := stale_mirror_cache, now := 0 }

def compare_error_st : St :=
  { host := { linear_host with compareError := some 500 }, cache := {}, now := 0 }

def sync_error_st : St :=
  { host := { linear_host with mergeUpstreamError := some 409 }, cache := {}, now := 0 }

def reject_ff_st : St :=
  { host := { linear_host with rejectNonFF := true }, cache := {}, now := 0 }

def meta_error_st : St :=
  { host := { linear_host with repoMetaError := some 500 }, cache := {}, now := 0 }

/-- The number of open issues bearing an exact title. -/
def open_titled_count (issues : List Issue) (title : String) : Nat :=
  issues.countP (fun i => i.state = "open" && i.title = title)

def c8_cache : Cache :=
  { repos := [(("o", "r"), { meta := some (0, {}), refs := [("m", ⟨0, "A"⟩)] })] }

def c8w_cache : Cache :=
  { repos := [(("o", "r"), { meta := some (2, {}), refs := [("m", ⟨2, "A"⟩)] })] }

/-- A state whose cache is empty but whose host has branch m at B: a
cache miss that must refetch B from the API. -/
def c8w_miss_st : St :=
  { host := { commits := [("B", [])], branches := [("m", "B")] },
    cache := { repos := [] }, now := 3 }

def c7_script : Nat → NetEvent := fun _ => .httpError ⟨403, [("Retry-After", "500")], ""⟩

def c9_server : List Page := [⟨["a"], [("LINK", "x")]⟩, ⟨["b"], []⟩]

def c9w_server : List Page := [⟨["a"], [("Link", "x")]⟩]

/-- A branch that resolves to a truthy (nonempty) sha. -/
def branch_good (l : List (String × String)) (k : String) : Prop :=
  ∃ s, alookup l k = some s ∧ s ≠ ""

/-- Every branch ref carries a nonempty sha. -/
def branches_wf (l : List (String × String)) : Prop :=
  ∀ pr ∈ l, pr.2 ≠ ""

/-- The state after the first bootstrap of the witness run: the two
cache entries the bootstrap's reads stored, with no branch changed. -/
def c6w_st1 : St :=
  { host := linear_host,
    cache := set_ref_sha (set_ref_sha { repos := [] } "org" "r1" "x/product" "A" 0)
      "org" "r1" "x/staging" "A" 0,
    now := 0 }

def c6w_out : BootstrapOut :=
  ⟨⟨"exists", "A"⟩, ⟨"exists", "A"⟩, ⟨"exists", "A"⟩, ⟨"exists", "A"⟩, "A"⟩

/-- The preconditions describing a steady-state repository at the start
of a run under the policy branch names of cfg0: the run begins with an
empty cache and a positive ttl; the metadata gate passes with the
parent's default branch main; every managed branch already exists with
a nonempty sha; the merge-upstream operation succeeds and lands the
mirror on the upstream head u, which is a known nonempty commit; and
neither the metadata nor the merge-upstream endpoint has an injected
failure. -/
structure RunReady (st : St) (u m0 p s0 n0 f0 : String) (ttl : Int) : Prop where
  hcache : st.cache = { repos := [] }
  httl : 0 < ttl
  hmerr : st.host.repoMetaError = none
  hsync : st.host.mergeUpstreamError = none
  hmeta : st.host.repoMeta = meta_fork_main
  hup : st.host.upstream = some u
  hm0 : alookup st.host.branches "main" = some m0
  hm0ne : m0 ≠ ""
  hp : alookup st.host.branches "x/product" = some p
  hpne : p ≠ ""
  hs : alookup st.host.branches "x/staging" = some s0
  hsne : s0 ≠ ""
  hn : alookup st.host.branches "x/snapshot" = some n0
  hnne : n0 ≠ ""
  hf : alookup st.host.branches "x/feature" = some f0
  hfne : f0 ≠ ""
  hu : (alookup st.host.commits u).isSome = true
  hune : u ≠ ""

/-! # Theorems -/

/-! ## Association list lemmas -/

theorem alookup_aset_self {κ α : Type} [DecidableEq κ] (l : List (κ × α)) (k : κ) (v : α) :
    alookup (aset l k v) k = some v := by
  induction l with
  | nil => simp [aset, alookup]
  | cons hd tl ih =>
      obtain ⟨k2, v2⟩ := hd
      by_cases h : k2 = k
      · simp [aset, alookup, h]
      · simp [aset, alookup, h, ih]

theorem alookup_aset_ne {κ α : Type} [DecidableEq κ] (l : List (κ × α)) (k k' : κ) (v : α)
    (h : k ≠ k') : alookup (aset l k v) k' = alookup l k' := by
  induction l with
  | nil => simp [aset, alookup, h]
  | cons hd tl ih =>
      obtain ⟨k2, v2⟩ := hd
      by_cases h2 : k2 = k
      · subst h2
        simp [aset, alookup, h]
      · simp [aset, alookup, h2, ih]

theorem get_ref_sha_set_self (c : Cache) (org repo ref sha : String) (now ttl : Int)
    (h : 0 < ttl) :
    get_ref_sha (set_ref_sha c org repo ref sha now) org repo ref ttl now = some sha := by
  have hfresh : is_fresh now (some now) ttl = true := by
    simp [is_fresh, Int.sub_self]
    omega
  simp [get_ref_sha, set_ref_sha, repo_cache, alookup_aset_self, hfresh]

/-! ## Monad run lemmas -/

theorem bind_def {α β : Type} (x : M α) (f : α → M β) : x >>= f = mbind x f := rfl

theorem pure_def {α : Type} (a : α) : (pure a : M α) = mpure a := rfl

theorem mbind_eq_of_ok {α β : Type} {x : M α} {f : α → M β} {s s2 : St} {a : α}
    (h : x s = (.ok a, s2)) : mbind x f s = f a s2 := by
  simp [mbind, h]

theorem mbind_eq_of_err {α β : Type} {x : M α} {f : α → M β} {s s2 : St} {e : ApiErr}
    (h : x s = (.error e, s2)) : mbind x f s = ((.error e : Except ApiErr β), s2) := by
  simp [mbind, h]

theorem mtry_eq_of_ok {α : Type} {x : M α} {hnd : ApiErr → M α} {s s2 : St} {a : α}
    (h : x s = (.ok a, s2)) : mtry x hnd s = (.ok a, s2) := by
  simp [mtry, h]

theorem mtry_eq_of_err {α : Type} {x : M α} {hnd : ApiErr → M α} {s s2 : St} {e : ApiErr}
    (h : x s = (.error e, s2)) : mtry x hnd s = hnd e s2 := by
  simp [mtry, h]

theorem mbind_ok_inv {α β : Type} {x : M α} {f : α → M β} {s s3 : St} {b : β}
    (h : mbind x f s = (.ok b, s3)) :
    ∃ a s2, x s = (.ok a, s2) ∧ f a s2 = (.ok b, s3) := by
  rcases hx : x s with ⟨ea, s2⟩
  rcases ea with e | a
  · rw [mbind, hx] at h
    cases h
  · rw [mbind, hx] at h
    exact ⟨a, s2, rfl, h⟩

theorem cached_ref_sha_run (org name ref : String) (ttl : Int) (st : St) :
    cached_ref_sha org name ref ttl st =
      (match get_ref_sha st.cache org name ref ttl st.now with
       | some s => (.ok s, st)
       | none =>
         match alookup st.host.branches ref with
         | some s => (.ok s, { st with cache := set_ref_sha st.cache org name ref s st.now })
         | none => (.error ⟨404, "Not Found"⟩, st)) := by
  unfold cached_ref_sha ref_sha
  rcases hg : get_ref_sha st.cache org name ref ttl st.now with _ | s <;>
    rcases hb : alookup st.host.branches ref with _ | s2 <;>
    simp [bind_def, pure_def, mbind, mpure, mget, mthrow, mmodify, hg, hb]

/-! ## C8 — cache hit characterization -/

/-- C8 counterexample: an entry stored at timestamp 0, read at time 0
with ttl 0, has elapsed time 0 ≤ ttl, yet get_ref_sha misses: the
claimed hit-iff-elapsed-at-most-ttl condition fails for non-positive
ttl. -/
theorem C8_counterexample :
    alookup (repo_cache c8_cache "o" "r").refs "m" = some ⟨0, "A"⟩ ∧
    ((0 : Int) - 0 ≤ 0) ∧
    get_ref_sha c8_cache "o" "r" "m" 0 0 = none := by
  refine ⟨by decide, by decide, by decide⟩

/-- C8 (amended): a stored entry is returned iff the ttl is positive
and the elapsed time now - ts is at most the ttl; an absent entry is
always a miss; and a miss only causes the caller to refetch from the
API and store the result — the cache-or-API reads used by the
orchestrator return the host's current value on every miss path, never
an incorrect decision.  Covers both the ref-sha and the repo-metadata
lookups. -/
theorem C8_cache_hit_characterization (c : Cache) (org repo ref : String)
    (ttl now ts ms : Int) (sha : String) (m : RepoMeta)
    (href : alookup (repo_cache c org repo).refs ref = some ⟨ts, sha⟩)
    (hmeta : (repo_cache c org repo).meta = some (ms, m)) :
    (get_ref_sha c org repo ref ttl now = some sha ↔ 0 < ttl ∧ now - ts ≤ ttl) ∧
    (get_repo_meta c org repo ttl now = some m ↔ 0 < ttl ∧ now - ms ≤ ttl) ∧
    (∀ c2 : Cache, ∀ org2 repo2 ref2 : String,
      alookup (repo_cache c2 org2 repo2).refs ref2 = none →
      get_ref_sha c2 org2 repo2 ref2 ttl now = none) ∧
    (∀ c2 : Cache, ∀ org2 repo2 : String,
      (repo_cache c2 org2 repo2).meta = none →
      get_repo_meta c2 org2 repo2 ttl now = none) ∧
    (∀ (st : St) (org2 repo2 ref2 : String) (ttl2 : Int),
      get_ref_sha st.cache org2 repo2 ref2 ttl2 st.now = none →
      cached_ref_sha org2 repo2 ref2 ttl2 st =
        (match alookup st.host.branches ref2 with
         | some s2 =>
            (.ok s2, { st with cache := set_ref_sha st.cache org2 repo2 ref2 s2 st.now })
         | none => (.error ⟨404, "Not Found"⟩, st))) ∧
    (∀ (st : St) (org2 repo2 : String) (ttl2 : Int),
      get_repo_meta st.cache org2 repo2 ttl2 st.now = none →
      st.host.repoMetaError = none →
      cached_repo_meta org2 repo2 ttl2 st =
        (.ok st.host.repoMeta,
         { st with cache := set_repo_meta st.cache org2 repo2 st.host.repoMeta st.now })) := by
  refine ⟨?_, ?_, ?_, ?_, ?_, ?_⟩
  · rw [get_ref_sha, href]
    simp only [is_fresh]
    split_ifs with h1 h2 <;> simp_all
  · rw [get_repo_meta, hmeta]
    simp only [is_fresh]
    split_ifs with h1 h2 <;> simp_all
  · intro c2 org2 repo2 ref2 h
    rw [get_ref_sha, h]
  · intro c2 org2 repo2 h
    rw [get_repo_meta, h]
  · intro st org2 repo2 ref2 ttl2 h
    rw [cached_ref_sha_run]
    simp only [h]
  · intro st org2 repo2 ttl2 h hae
    simp [cached_repo_meta, api_get_repo_meta, bind_def, pure_def, mbind, mpure, mget,
      mthrow, mmodify, h, hae]

/-- Witness for C8: a concrete fresh entry (stored at time 2, read at
time 3, ttl 10) is returned, and a concrete miss refetches the host's
current sha B and stores it. -/
theorem C8_cache_hit_characterization_witness :
    get_ref_sha c8w_cache "o" "r" "m" 10 3 = some "A" ∧
    cached_ref_sha "o" "r" "m" 10 c8w_miss_st =
      (.ok "B", { c8w_miss_st with
        cache := set_ref_sha c8w_miss_st.cache "o" "r" "m" "B" 3 }) :=
  ⟨(C8_cache_hit_characterization c8w_cache "o" "r" "m" 10 3 2 2 "A" {}
      (by decide) (by decide)).1.mpr ⟨by decide, by decide⟩,
   (C8_cache_hit_characterization c8w_cache "o" "r" "m" 10 3 2 2 "A" {}
      (by decide) (by decide)).2.2.2.2.1 c8w_miss_st "o" "r" "m" 10 (by rfl)⟩

/-! ## C10 — cache file loading -/

/-- C10: _load_json is claimed total over file contents, and it does
map a missing file, an oversized file, a caught read error, a non-dict
document and a wrong-version document to the fresh empty cache; but a
present small file whose bytes are not valid UTF-8 raises an uncaught
UnicodeDecodeError (a ValueError that is neither an OSError nor a
json.JSONDecodeError), so load_cache is not total. -/
theorem C10_load_cache_totality :
    load_cache (.present 3 .unicodeDecodeError) = .error .unicodeDecodeError ∧
    load_cache .missing = .ok fresh_cache_doc ∧
    load_cache (.present (MAX_CACHE_BYTES + 1) (.ok (.jobj []))) = .ok fresh_cache_doc ∧
    load_cache (.present 3 .osError) = .ok fresh_cache_doc ∧
    load_cache (.present 3 .jsonDecodeError) = .ok fresh_cache_doc ∧
    load_cache (.present 3 (.ok (.jstr "x"))) = .ok fresh_cache_doc ∧
    load_cache (.present 3 (.ok (.jobj [("version", .jnum 2)]))) = .ok fresh_cache_doc ∧
    load_cache (.present 3 (.ok (.jobj [("version", .jnum 1)]))) =
      .ok (.jobj [("version", .jnum 1), ("orgs", .jobj [])]) :=
  ⟨rfl, rfl, rfl, rfl, rfl, rfl, rfl, rfl⟩

/-! ## C7 — retry client -/

/-- C7 counterexample: five consecutive 403 responses carrying
Retry-After 500 make the client sleep 500 seconds before every retry —
the wait is not clamped to the claimed interval of 1 to 60 seconds —
and the ApiError surfaced after the attempt budget carries status 0 and
the retry-limit message, not the response's HTTP status 403. -/
theorem C7_counterexample :
    (request_with_retry 0 c7_script).2 = [500, 500, 500, 500, 500] ∧
    ¬((500 : Int) ≤ 60) ∧
    (request_with_retry 0 c7_script).1 = .error ⟨0, "GitHub API retry limit exceeded"⟩ ∧
    (0 : Nat) ≠ 403 :=
  ⟨by decide, by decide, by rfl, by decide⟩

/-- C7 (amended): on a run of 403 (or 429) responses the client sleeps,
before each of its five attempts, the wait computed from the response
headers — Retry-After when it parses, else the time until the reported
rate-limit reset, else the exponential fallback of at most 20 seconds,
with no clamping to any interval — and after the five-attempt budget it
raises an ApiError with status 0 and the retry-limit message rather
than the response's status. -/
theorem C7_retry_behavior (hs : List (String × String)) (now : Int) (msg : String) :
    request_with_retry now (fun _ => .httpError ⟨403, hs, msg⟩) =
      (.error ⟨0, "GitHub API retry limit exceeded"⟩,
        [wait_for hs now 1, wait_for hs now 2, wait_for hs now 3,
         wait_for hs now 4, wait_for hs now 5]) ∧
    request_with_retry now (fun _ => .httpError ⟨429, hs, msg⟩) =
      (.error ⟨0, "GitHub API retry limit exceeded"⟩,
        [wait_for hs now 1, wait_for hs now 2, wait_for hs now 3,
         wait_for hs now 4, wait_for hs now 5]) := by
  constructor <;>
    simp [request_with_retry, request_with_retry_go, retryable_statuses]

/-! ## C9 — pagination -/

theorem alookup_some_mem {κ α : Type} [DecidableEq κ] (l : List (κ × α)) (k : κ) (v : α)
    (h : alookup l k = some v) : (k, v) ∈ l := by
  induction l with
  | nil => simp [alookup] at h
  | cons hd tl ih =>
      obtain ⟨k2, v2⟩ := hd
      by_cases h2 : k2 = k
      · subst h2
        simp [alookup] at h
        subst h
        exact List.mem_cons_self _ _
      · simp [alookup, h2] at h
        exact List.mem_cons_of_mem _ (ih h)

theorem alookup_mk_query_per_page (base : List (String × String)) (page : Nat) :
    alookup (mk_query base page) "per_page" = some "100" := by
  unfold mk_query
  rw [alookup_aset_ne _ _ _ _ (by decide)]
  exact alookup_aset_self _ _ _

theorem paginate_go_per_page (base : List (String × String)) :
    ∀ (server : List Page) (page : Nat) (q : List (String × String)),
      q ∈ (paginate_go base server page).2 → alookup q "per_page" = some "100" := by
  intro server
  induction server with
  | nil =>
      intro page q hq
      simp [paginate_go] at hq
      subst hq
      exact alookup_mk_query_per_page base page
  | cons p rest ih =>
      intro page q hq
      by_cases h1 : p.items.isEmpty <;>
        by_cases h2 : has_link_key p.headers <;>
        rcases h3 : link_value p.headers with _ | l <;>
        simp [paginate_go, h1, h2, h3] at hq <;>
        try by_cases h5 : l = "" <;>
        try by_cases h4 : str_contains l next_rel
      all_goals
        try simp [h5, h4] at hq
      all_goals
        first
        | (subst hq; exact alookup_mk_query_per_page base page)
        | (rcases hq with rfl | hq
           · exact alookup_mk_query_per_page base page
           · exact ih (page + 1) q hq)

theorem paginate_go_items_length (base : List (String × String)) :
    ∀ (server : List Page) (page : Nat),
      (paginate_go base server page).1.length ≤
        (server.map (fun p => p.items.length)).sum := by
  intro server
  induction server with
  | nil => intro page; simp [paginate_go]
  | cons p rest ih =>
      intro page
      by_cases h1 : p.items.isEmpty <;>
        by_cases h2 : has_link_key p.headers <;>
        rcases h3 : link_value p.headers with _ | l <;>
        simp [paginate_go, h1, h2, h3] <;>
        try by_cases h5 : l = "" <;>
        try by_cases h4 : str_contains l next_rel
      all_goals try simp [h5, h4]
      all_goals
        first
        | omega
        | (have hih := ih (page + 1); omega)

theorem paginate_go_queries_length (base : List (String × String)) :
    ∀ (server : List Page) (page : Nat),
      (paginate_go base server page).2.length ≤ server.length + 1 := by
  intro server
  induction server with
  | nil => intro page; simp [paginate_go]
  | cons p rest ih =>
      intro page
      by_cases h1 : p.items.isEmpty <;>
        by_cases h2 : has_link_key p.headers <;>
        rcases h3 : link_value p.headers with _ | l <;>
        simp [paginate_go, h1, h2, h3] <;>
        try by_cases h5 : l = "" <;>
        try by_cases h4 : str_contains l next_rel
      all_goals try simp [h5, h4]
      all_goals
        first
        | omega
        | (have hih := ih (page + 1); omega)

/-- C9 counterexample: the first page's headers carry no next link
relation anywhere (the only header is keyed LINK, whose value lacks the
relation), so the claim's termination condition says iteration stops
after page 1; but because the lowered-key membership test passes while
the case-sensitive Link/link reads miss, paginate requests page 2 and
yields its items too. -/
theorem C9_counterexample :
    ((c9_server.headD ⟨[], []⟩).headers.all
      (fun p => !(str_contains p.2 next_rel))) = true ∧
    link_value (c9_server.headD ⟨[], []⟩).headers = none ∧
    (paginate c9_server []).1 = ["a", "b"] ∧
    (paginate c9_server []).1 ≠ ["a"] := by
  refine ⟨by decide, by decide, by decide, by decide⟩

/-- C9 (amended): every request made by paginate carries page size 100;
the yielded sequence is finite — at most the server's total item count,
over at most one request beyond the server's page count; iteration
stops at an empty page; and it stops at a page whose case-sensitive
Link or link header read yields a truthy (nonempty) value lacking the
next relation.  A Link header stored under any other capitalization,
or one read back with an empty (falsy) value, does not stop iteration,
which then stops at the next empty page instead. -/
theorem C9_pagination (server : List Page) (base : List (String × String)) :
    (∀ q ∈ (paginate server base).2, alookup q "per_page" = some "100") ∧
    (paginate server base).1.length ≤ (server.map (fun p => p.items.length)).sum ∧
    (paginate server base).2.length ≤ server.length + 1 ∧
    (∀ p1 rest, server = p1 :: rest → p1.items = [] →
      (paginate server base).1 = []) ∧
    (∀ p1 rest l, server = p1 :: rest → p1.items ≠ [] →
      link_value p1.headers = some l → l ≠ "" → str_contains l next_rel = false →
      (paginate server base).1 = p1.items) := by
  refine ⟨?_, ?_, ?_, ?_, ?_⟩
  · intro q hq
    exact paginate_go_per_page base server 1 q hq
  · exact paginate_go_items_length base server 1
  · exact paginate_go_queries_length base server 1
  · intro p1 rest hs hempty
    subst hs
    simp [paginate, paginate_go, List.isEmpty_iff.mpr hempty]
  · intro p1 rest l hs hne hlink hlne hnorel
    subst hs
    have hkey : has_link_key p1.headers = true := by
      unfold link_value opt_str_or at hlink
      rcases hL : alookup p1.headers "Link" with _ | v
      · rw [hL] at hlink
        have hlink2 : alookup p1.headers "link" = some l := hlink
        have hm := alookup_some_mem p1.headers "link" l hlink2
        unfold has_link_key
        exact List.any_eq_true.mpr
          ⟨("link", l), hm, (by decide : lower_is_link "link" = true)⟩
      · rw [hL] at hlink
        have hlink2 : (if v = "" then alookup p1.headers "link" else some v) = some l := hlink
        by_cases hv : v = ""
        · rw [if_pos hv] at hlink2
          have hm := alookup_some_mem p1.headers "link" l hlink2
          unfold has_link_key
          exact List.any_eq_true.mpr
            ⟨("link", l), hm, (by decide : lower_is_link "link" = true)⟩
        · rw [if_neg hv] at hlink2
          have hvl : v = l := by
            cases hlink2
            rfl
          subst hvl
          have hm := alookup_some_mem p1.headers "Link" v hL
          unfold has_link_key
          exact List.any_eq_true.mpr
            ⟨("Link", v), hm, (by decide : lower_is_link "Link" = true)⟩
    have hempty : p1.items.isEmpty = false := by
      simp [List.isEmpty_iff, hne]
    simp [paginate, paginate_go, hempty, hkey, hlink, hlne, hnorel]

/-- Witness for C9: at a concrete one-page server whose Link header
value has no next relation, pagination yields exactly that page's
items. -/
theorem C9_pagination_witness : (paginate c9w_server []).1 = ["a"] :=
  (C9_pagination c9w_server []).2.2.2.2 ⟨["a"], [("Link", "x")]⟩ [] "x" rfl
    (by decide) (by decide) (by decide) (by decide)

/-! ## C1 — product-equals-mirror convergence -/

/-- C1 counterexample: a run that skips nothing (the metadata gate
passes, the mirror sync lands the mirror on B, the bootstrap finds every
branch) but starts with a cache file still carrying a fresh entry A for
the mirror ref.  The diverged product is force-reset to the cached A,
so the run ends with product at A while the mirror branch is at B. -/
theorem C1_counterexample :
    (process_repo cfg0 (some "r1") "run1" 800 stale_cache_st).1.map
      (fun r => r.notes) = .ok [] ∧
    alookup (process_repo cfg0 (some "r1") "run1" 800 stale_cache_st).2.host.branches
      "x/product" = some "A" ∧
    alookup (process_repo cfg0 (some "r1") "run1" 800 stale_cache_st).2.host.branches
      "main" = some "B" ∧
    ("A" : String) ≠ "B" := by
  refine ⟨by rfl, by rfl, by rfl, by decide⟩

/-! ## C2 — downstream promotion gated on a stale cache read -/

/-- C2: with the default metadata ttl of 800 the product branch is
fast-forwarded from A to C on the host, but process_repo re-reads
product's sha through the cache entry it stored during bootstrap, so it
records no product change and skips the staging and feature promotion,
leaving staging at A rather than at the downstream target B (the parent
of C); the identical run with the cache disabled (ttl 0) detects the
change and promotes staging to B.  This contradicts the claimed
promoted-iff-product-changed equivalence, and the claimed behavior is
exactly what the code does when the stale read is eliminated, so the
cache read is the slip. -/
theorem C2_stale_cache_skips_promotion :
    alookup (process_repo cfg0 (some "r1") "run1" 800 linear_st).2.host.branches
      "x/product" = some "C" ∧
    (process_repo cfg0 (some "r1") "run1" 800 linear_st).1.map
      (fun r => (r.product_changed, r.staging_promo, r.feature_promo)) =
      .ok (some "no", some "skipped (no product change)",
        some "skipped (no product change)") ∧
    alookup (process_repo cfg0 (some "r1") "run1" 800 linear_st).2.host.branches
      "x/staging" = some "A" ∧
    (parent_sha "C" (process_repo cfg0 (some "r1") "run1" 800 linear_st).2).1 =
      .ok (some "B") ∧
    ("A" : String) ≠ "B" ∧
    (process_repo cfg0 (some "r1") "run1" 0 linear_st).1.map
      (fun r => (r.product_changed, r.staging_promo, r.feature_promo)) =
      .ok (some "yes", some "fast-forwarded to target",
        some "fast-forwarded to target") ∧
    alookup (process_repo cfg0 (some "r1") "run1" 0 linear_st).2.host.branches
      "x/staging" = some "B" ∧
    alookup (process_repo cfg0 (some "r1") "run1" 0 linear_st).2.host.branches
      "x/feature" = some "B" := by
  refine ⟨by rfl, by rfl, by rfl, by rfl, by decide, by rfl, by rfl, by rfl⟩

/-! ## C3 — the per-repo error boundary -/

/-- C3 counterexample: an API error raised by the compare endpoint in
the product-enforcement step is not caught inside process_repo — the
call returns the raised error — and the per-repo loop of main, which
has no guard, aborts with that error before any result for the second
repository (or even the first) is produced. -/
theorem C3_counterexample :
    (process_repo cfg0 (some "r1") "run1" 800 compare_error_st).1 =
      .error ⟨500, "compare error"⟩ ∧
    (run_repos cfg0 [some "r1", some "r2"] "run1" 800 compare_error_st).1 =
      .error ⟨500, "compare error"⟩ := by
  refine ⟨by rfl, by rfl⟩

/-- C3 (amended): an API error during the guarded early phases is
caught at the repo boundary and becomes a Skipped note (shown here for
the metadata fetch, with the state untouched); but an API error raised
by the compare endpoint in the product-enforcement step is not caught:
process_repo itself returns the error, which the unguarded loop in main
then propagates. -/
theorem C3_error_boundary :
    (∀ (st : St) (cfg : Config) (name rid : String) (ttl : Int) (c : Nat),
      get_repo_meta st.cache cfg.org name ttl st.now = none →
      st.host.repoMetaError = some c →
      process_repo cfg (some name) rid ttl st =
        (.ok { name := some name,
               notes := ["Skipped: failed to fetch repo metadata (" ++ toString c ++ ")"] },
         st)) ∧
    (∀ (st : St) (name rid u m0 p s0 n0 f0 : String) (ttl : Int) (c : Nat),
      RunReady st u m0 p s0 n0 f0 ttl →
      st.host.compareError = some c →
      (process_repo cfg0 (some name) rid ttl st).1 = .error ⟨c, "compare error"⟩) := by
  constructor
  · intro st cfg name rid ttl c hcache hmerr
    simp [process_repo, bind_def, pure_def, mbind, mpure, mtry, mget, mthrow, mmodify,
      cached_repo_meta, api_get_repo_meta, hcache, hmerr]
  · intro st name rid u m0 p s0 n0 f0 ttl c h hcerr
    obtain ⟨hcache, httl, hmerr, hsync, hmeta, hup, hm0, hm0ne, hp, hpne, hs, hsne,
      hn, hnne, hf, hfne, hu, hune⟩ := h
    have hne1 : ("main" : String) ≠ "x/product" := by decide
    have hne2 : ("main" : String) ≠ "x/staging" := by decide
    have hne3 : ("main" : String) ≠ "x/snapshot" := by decide
    have hne4 : ("main" : String) ≠ "x/feature" := by decide
    have hne5 : ("x/product" : String) ≠ "x/staging" := by decide
    have hne6 : ("x/product" : String) ≠ "x/snapshot" := by decide
    have hne7 : ("x/product" : String) ≠ "x/feature" := by decide
    have hne8 : ("x/staging" : String) ≠ "x/snapshot" := by decide
    have hne9 : ("x/staging" : String) ≠ "x/feature" := by decide
    have httl2 : ¬(ttl ≤ 0) := by omega
    have hle : (0 : Int) ≤ ttl := by omega
    have hfr : ∀ x : Int, x ≤ ttl + x := fun x => by omega
    simp [process_repo, bind_def, pure_def, mbind, mpure, mtry, mget, mthrow, mmodify, mset,
      cached_repo_meta, cached_ref_sha, api_get_repo_meta, cfg0, hcache, hmerr, hmeta,
      meta_fork_main, select_mirror_branch, mirror_candidate, ref_sha_optional, ref_sha,
      hm0, hm0ne, str_truthy, sync_mirror, hsync, hup, bootstrap_branches, ensure_branch,
      get_ref_sha, get_repo_meta, set_ref_sha, set_repo_meta, repo_cache, is_fresh,
      alookup, aset, Option.getD,
      alookup_aset_self, alookup_aset_ne, hne1, hne2, hne3, hne4, hne5, hne6, hne7, hne8,
      hne9, httl2, hle, hfr, Int.sub_self, hp, hpne, hs, hsne, hn, hnne, hf, hfne,
      presence_of, enforce_product, compare_refs, hcerr]

/-- Witness for C3: the containment and the escape, each at a concrete
state. -/
theorem C3_error_boundary_witness :
    process_repo cfg0 (some "r1") "run1" 800 meta_error_st =
      (.ok { name := some "r1",
             notes := ["Skipped: failed to fetch repo metadata (500)"] }, meta_error_st) ∧
    (process_repo cfg0 (some "r1") "run1" 800 compare_error_st).1 =
      .error ⟨500, "compare error"⟩ := by
  constructor
  · exact C3_error_boundary.1 meta_error_st cfg0 "r1" "run1" 800 500 (by rfl) (by rfl)
  · exact C3_error_boundary.2 compare_error_st "r1" "run1" "C" "A" "A" "A" "A" "A" 800 500
      ⟨by rfl, by decide, by rfl, by rfl, by rfl, by rfl, by rfl, by decide, by rfl,
        by decide, by rfl, by decide, by rfl, by decide, by rfl, by decide, by rfl,
        by decide⟩ (by rfl)

/-! ## C4 — mirror sync failure -/

theorem open_titled_count_patch (issues : List Issue) (num : Nat) (body title : String) :
    open_titled_count (patch_body_l issues num body) title =
      open_titled_count issues title := by
  unfold open_titled_count patch_body_l
  rw [List.countP_map]
  apply List.countP_congr
  intro i _
  by_cases h : i.number = num <;> simp [h]

theorem open_titled_count_comment (issues : List Issue) (num : Nat) (c title : String) :
    open_titled_count (add_comment_l issues num c) title =
      open_titled_count issues title := by
  unfold open_titled_count add_comment_l
  rw [List.countP_map]
  apply List.countP_congr
  intro i _
  by_cases h : i.number = num <;> simp [h]

theorem open_titled_count_append_one (issues : List Issue) (n : Nat) (title body : String) :
    open_titled_count (issues ++ [⟨n, title, body, "open", []⟩]) title =
      open_titled_count issues title + 1 := by
  unfold open_titled_count
  rw [List.countP_append]
  simp [List.countP, List.countP.go]

theorem open_titled_count_zero_of_find_none (issues : List Issue) (title : String)
    (h : issues.find? (fun i => i.state = "open" && i.title = title) = none) :
    open_titled_count issues title = 0 := by
  unfold open_titled_count
  rw [List.countP_eq_zero]
  intro i hi
  exact List.find?_eq_none.mp h i hi

theorem open_titled_count_pos_of_find_some (issues : List Issue) (title : String)
    (i0 : Issue)
    (h : issues.find? (fun i => i.state = "open" && i.title = title) = some i0) :
    0 < open_titled_count issues title := by
  unfold open_titled_count
  rw [List.countP_pos_iff]
  have hmem := List.mem_of_find?_eq_some h
  have hpred := List.find?_some h
  exact ⟨i0, hmem, hpred⟩

/-- C4: when merge-upstream returns a non-success result, process_repo
mutates no branch ref, attempts no ref mutation, records the skip note
and the error status, and files or updates the tracking issue: the
first open issue with the exact automation title is body-patched and
commented when one exists (so a subsequent failing run updates rather
than duplicates), and a fresh issue is created only when none exists;
either way exactly max(previous count, 1) open issues with that title
remain. -/
theorem C4_mirror_sync_failure (st : St) (name rid : String) (ttl : Int) (code : Nat)
    (m0 : String)
    (hcachemeta : get_repo_meta st.cache "org" name ttl st.now = none)
    (hmerr : st.host.repoMetaError = none)
    (hmeta : st.host.repoMeta = meta_fork_main)
    (hm0 : alookup st.host.branches "main" = some m0)
    (hm0ne : m0 ≠ "")
    (hsync : st.host.mergeUpstreamError = some code)
    (hiss : st.host.issuesDisabled = false) :
    (process_repo cfg0 (some name) rid ttl st).1.map
      (fun r => (r.notes, r.mirror_sync)) =
      .ok (["Skipped: mirror sync failed"],
        some ("error (" ++ toString code ++ ")")) ∧
    (process_repo cfg0 (some name) rid ttl st).2.host.branches = st.host.branches ∧
    (process_repo cfg0 (some name) rid ttl st).2.trace = st.trace ∧
    (match st.host.issues.find?
        (fun i => i.state = "open" && i.title = "[automation] mirror sync failed") with
     | some i0 =>
        (process_repo cfg0 (some name) rid ttl st).2.host.issues =
          add_comment_l
            (patch_body_l st.host.issues i0.number
              (issue_body "Mirror sync failed" "merge upstream failed"))
            i0.number (comment_body rid "merge upstream failed") ∧
        (process_repo cfg0 (some name) rid ttl st).1.map (fun r => r.issue) =
          .ok (some ("updated #" ++ toString i0.number))
     | none =>
        (process_repo cfg0 (some name) rid ttl st).2.host.issues =
          st.host.issues ++ [⟨st.host.nextIssue, "[automation] mirror sync failed",
            issue_body "Mirror sync failed" "merge upstream failed", "open", []⟩] ∧
        (process_repo cfg0 (some name) rid ttl st).1.map (fun r => r.issue) =
          .ok (some ("created #" ++ toString st.host.nextIssue))) ∧
    open_titled_count (process_repo cfg0 (some name) rid ttl st).2.host.issues
        "[automation] mirror sync failed" =
      max (open_titled_count st.host.issues "[automation] mirror sync failed") 1 := by
  rcases hfind : st.host.issues.find?
      (fun i => i.state = "open" && i.title = "[automation] mirror sync failed")
    with _ | i0
  · refine ⟨?_, ?_, ?_, ?_, ?_⟩ <;>
      simp [process_repo, bind_def, pure_def, mbind, mpure, mtry, mget, mthrow, mmodify,
        mset, cached_repo_meta, api_get_repo_meta, cfg0, hcachemeta, hmerr, hmeta,
        meta_fork_main, select_mirror_branch, mirror_candidate, ref_sha_optional, ref_sha,
        hm0, hm0ne, str_truthy, sync_mirror, hsync, create_or_update_issue,
        find_open_issue, hiss, hfind, create_issue, patch_issue_body, post_issue_comment,
        format_issue_action, Except.map]
    rw [open_titled_count_append_one, open_titled_count_zero_of_find_none _ _ hfind]
    omega
  · refine ⟨?_, ?_, ?_, ?_, ?_⟩ <;>
      simp [process_repo, bind_def, pure_def, mbind, mpure, mtry, mget, mthrow, mmodify,
        mset, cached_repo_meta, api_get_repo_meta, cfg0, hcachemeta, hmerr, hmeta,
        meta_fork_main, select_mirror_branch, mirror_candidate, ref_sha_optional, ref_sha,
        hm0, hm0ne, str_truthy, sync_mirror, hsync, create_or_update_issue,
        find_open_issue, hiss, hfind, create_issue, patch_issue_body, post_issue_comment,
        format_issue_action, Except.map]
    rw [open_titled_count_comment, open_titled_count_patch]
    have := open_titled_count_pos_of_find_some _ _ _ hfind
    omega

/-! ## Ancestry and compare infrastructure -/

theorem is_ancestor_refl (commits : List (String × List String)) (a : String) :
    is_ancestor commits a a = true := by
  unfold is_ancestor is_ancestor_fuel
  simp

theorem getLast?_append_single {α : Type} (l : List α) (a : α) :
    (l ++ [a]).getLast? = some a :=
  List.getLast?_concat _

theorem mem_keys_of_alookup_isSome (commits : List (String × List String)) (u : String)
    (hu : (alookup commits u).isSome = true) : u ∈ commits.map Prod.fst := by
  obtain ⟨v, hv⟩ := Option.isSome_iff_exists.mp hu
  exact List.mem_map_of_mem Prod.fst (alookup_some_mem _ _ _ hv)

/-! ## Full-run lemmas for a steady-state repository

Each lemma drives process_repo through the whole pipeline under the
RunReady preconditions and one compare outcome of step 6, and
characterizes the result, the final refs of product and mirror, and the
attempted-mutation trace. -/

theorem run_identical (st : St) (name rid u m0 s0 n0 f0 : String) (ttl : Int)
    (h : RunReady st u m0 u s0 n0 f0 ttl)
    (hcerr : st.host.compareError = none) :
    (process_repo cfg0 (some name) rid ttl st).1.map (fun r => r.notes) = .ok [] ∧
    (process_repo cfg0 (some name) rid ttl st).1.map (fun r => r.product_merge) =
      .ok (some "up_to_date") ∧
    alookup (process_repo cfg0 (some name) rid ttl st).2.host.branches "x/product" =
      some u ∧
    alookup (process_repo cfg0 (some name) rid ttl st).2.host.branches "main" = some u ∧
    (process_repo cfg0 (some name) rid ttl st).2.trace = st.trace := by
  obtain ⟨hcache, httl, hmerr, hsync, hmeta, hup, hm0, hm0ne, hp, hpne, hs, hsne,
    hn, hnne, hf, hfne, hu, hune⟩ := h
  have hne1 : ("main" : String) ≠ "x/product" := by decide
  have hne2 : ("main" : String) ≠ "x/staging" := by decide
  have hne3 : ("main" : String) ≠ "x/snapshot" := by decide
  have hne4 : ("main" : String) ≠ "x/feature" := by decide
  have hne5 : ("x/product" : String) ≠ "x/staging" := by decide
  have hne6 : ("x/product" : String) ≠ "x/snapshot" := by decide
  have hne7 : ("x/product" : String) ≠ "x/feature" := by decide
  have hne8 : ("x/staging" : String) ≠ "x/snapshot" := by decide
  have hne9 : ("x/staging" : String) ≠ "x/feature" := by decide
  have httl2 : ¬(ttl ≤ 0) := by omega
  have hle : (0 : Int) ≤ ttl := by omega
  have hfr : ∀ x : Int, x ≤ ttl + x := fun x => by omega
  refine ⟨?_, ?_, ?_, ?_, ?_⟩ <;>
    simp [process_repo, bind_def, pure_def, mbind, mpure, mtry, mget, mthrow, mmodify, mset,
      cached_repo_meta, cached_ref_sha, api_get_repo_meta, cfg0, hcache, hmerr, hmeta,
      meta_fork_main, select_mirror_branch, mirror_candidate, ref_sha_optional, ref_sha,
      hm0, hm0ne, str_truthy, sync_mirror, hsync, hup, bootstrap_branches, ensure_branch,
      get_ref_sha, get_repo_meta, set_ref_sha, set_repo_meta, repo_cache, is_fresh,
      alookup, aset, Option.getD,
      alookup_aset_self, alookup_aset_ne, hne1, hne2, hne3, hne4, hne5, hne6, hne7, hne8,
      hne9, httl2, hle, hfr, Int.sub_self, hp, hpne, hs, hsne, hn, hnne, hf, hfne,
      presence_of, enforce_product, compare_refs, hcerr, resolve, compare_shas,
      compare_status, promote_phase, Except.map]

set_option maxHeartbeats 2000000 in
theorem run_behind (st : St) (name rid u m0 p s0 n0 f0 : String) (ttl : Int)
    (h : RunReady st u m0 p s0 n0 f0 ttl)
    (hcerr : st.host.compareError = none)
    (hpu : p ≠ u)
    (hanc : is_ancestor st.host.commits p u = true)
    (hnb : is_ancestor st.host.commits u p = false) :
    (process_repo cfg0 (some name) rid ttl st).1.map (fun r => r.notes) = .ok [] ∧
    (process_repo cfg0 (some name) rid ttl st).1.map (fun r => r.product_merge) =
      .ok (some (if st.host.rejectNonFF then "reset (ff failed)" else "fast-forwarded")) ∧
    alookup (process_repo cfg0 (some name) rid ttl st).2.host.branches "x/product" =
      some u ∧
    alookup (process_repo cfg0 (some name) rid ttl st).2.host.branches "main" = some u ∧
    (process_repo cfg0 (some name) rid ttl st).2.trace =
      st.trace ++
        (if st.host.rejectNonFF then
          [.patchAttempt "x/product" u false, .patchAttempt "x/product" u true]
         else [.patchAttempt "x/product" u false]) := by
  obtain ⟨hcache, httl, hmerr, hsync, hmeta, hup, hm0, hm0ne, hp, hpne, hs, hsne,
    hn, hnne, hf, hfne, hu, hune⟩ := h
  have httl2 : ¬(ttl ≤ 0) := by omega
  have hle : (0 : Int) ≤ ttl := by omega
  have hfr : ∀ x : Int, x ≤ ttl + x := fun x => by omega
  obtain ⟨ups, hups⟩ := Option.isSome_iff_exists.mp hu
  have hufwd : u ∈ (st.host.commits.map Prod.fst).filter
      (fun c => is_ancestor st.host.commits c u && !(is_ancestor st.host.commits c p)) := by
    rw [List.mem_filter]
    refine ⟨mem_keys_of_alookup_isSome st.host.commits u hu, ?_⟩
    simp [is_ancestor_refl, hnb]
  have hfwdne : ((st.host.commits.map Prod.fst).filter
      (fun c => is_ancestor st.host.commits c u &&
        !(is_ancestor st.host.commits c p))).isEmpty = false := by
    rcases he : ((st.host.commits.map Prod.fst).filter
      (fun c => is_ancestor st.host.commits c u &&
        !(is_ancestor st.host.commits c p))) with _ | ⟨x, xs⟩
    · rw [he] at hufwd
      simp at hufwd
    · rfl
  rcases hb : st.host.rejectNonFF with _ | _ <;>
    refine ⟨?_, ?_, ?_, ?_, ?_⟩ <;>
    simp [process_repo, bind_def, pure_def, mbind, mpure, mtry, mget, mthrow, mmodify, mset,
      cached_repo_meta, cached_ref_sha, api_get_repo_meta, cfg0, hcache, hmerr, hmeta,
      meta_fork_main, select_mirror_branch, mirror_candidate, ref_sha_optional, ref_sha,
      hm0, hm0ne, str_truthy, sync_mirror, hsync, hup, bootstrap_branches, ensure_branch,
      get_ref_sha, get_repo_meta, set_ref_sha, set_repo_meta, repo_cache, is_fresh,
      alookup, aset, Option.getD,
      alookup_aset_self, alookup_aset_ne,
      httl2, hle, hfr, Int.sub_self, hp, hpne, hs, hsne, hn, hnne, hf, hfne,
      presence_of, enforce_product, compare_refs, hcerr, resolve, compare_shas,
      compare_status, promote_phase, Except.map, all_shas,
      hpu, hanc, hnb, hb, hufwd, hfwdne,
      patch_ref, ff_update, force_update, head_sha, getLast?_append_single, hups, hune]

set_option maxHeartbeats 2000000 in
theorem run_forced (st : St) (name rid u m0 p s0 n0 f0 : String) (ttl : Int)
    (h : RunReady st u m0 p s0 n0 f0 ttl)
    (hcerr : st.host.compareError = none)
    (hpu : p ≠ u)
    (hanc : is_ancestor st.host.commits p u = false) :
    (process_repo cfg0 (some name) rid ttl st).1.map (fun r => r.notes) = .ok [] ∧
    (process_repo cfg0 (some name) rid ttl st).1.map (fun r => r.product_merge) =
      .ok (some ("reset (" ++
        (if is_ancestor st.host.commits u p then "ahead" else "diverged") ++ ")")) ∧
    alookup (process_repo cfg0 (some name) rid ttl st).2.host.branches "x/product" =
      some u ∧
    alookup (process_repo cfg0 (some name) rid ttl st).2.host.branches "main" = some u ∧
    (process_repo cfg0 (some name) rid ttl st).2.trace =
      st.trace ++ [.patchAttempt "x/product" u true] := by
  obtain ⟨hcache, httl, hmerr, hsync, hmeta, hup, hm0, hm0ne, hp, hpne, hs, hsne,
    hn, hnne, hf, hfne, hu, hune⟩ := h
  have httl2 : ¬(ttl ≤ 0) := by omega
  have hle : (0 : Int) ≤ ttl := by omega
  have hfr : ∀ x : Int, x ≤ ttl + x := fun x => by omega
  obtain ⟨ups, hups⟩ := Option.isSome_iff_exists.mp hu
  rcases ha2 : is_ancestor st.host.commits u p with _ | _ <;>
    refine ⟨?_, ?_, ?_, ?_, ?_⟩ <;>
    simp [process_repo, bind_def, pure_def, mbind, mpure, mtry, mget, mthrow, mmodify, mset,
      cached_repo_meta, cached_ref_sha, api_get_repo_meta, cfg0, hcache, hmerr, hmeta,
      meta_fork_main, select_mirror_branch, mirror_candidate, ref_sha_optional, ref_sha,
      hm0, hm0ne, str_truthy, sync_mirror, hsync, hup, bootstrap_branches, ensure_branch,
      get_ref_sha, get_repo_meta, set_ref_sha, set_repo_meta, repo_cache, is_fresh,
      alookup, aset, Option.getD,
      alookup_aset_self, alookup_aset_ne,
      httl2, hle, hfr, Int.sub_self, hp, hpne, hs, hsne, hn, hnne, hf, hfne,
      presence_of, enforce_product, compare_refs, hcerr, resolve, compare_shas,
      compare_status, promote_phase, Except.map, all_shas,
      hpu, hanc, ha2,
      patch_ref, ff_update, force_update, head_sha, hups, hune]

/-! ## C1 — amended convergence theorem -/

/-- C1 (amended): for a steady-state repository with no fresh cache
entries at the start of the run (an empty cache), a positive ttl, a
passing metadata gate, a successful mirror sync landing the mirror on
the upstream head u, and a commit graph in which the product head p and
u are not mutually reachable unless equal, the run completes with no
skip note and the product branch's final SHA equals the mirror branch's
final SHA (both u) in every compare case: identical moves nothing,
behind fast-forwards (or falls back to a forced update when the host
rejects the fast-forward), and ahead or diverged force-resets. -/
theorem C1_product_converges (st : St) (name rid u m0 p s0 n0 f0 : String) (ttl : Int)
    (h : RunReady st u m0 p s0 n0 f0 ttl)
    (hcerr : st.host.compareError = none)
    (hnc : ¬(is_ancestor st.host.commits p u = true ∧
             is_ancestor st.host.commits u p = true ∧ p ≠ u)) :
    (process_repo cfg0 (some name) rid ttl st).1.map (fun r => r.notes) = .ok [] ∧
    alookup (process_repo cfg0 (some name) rid ttl st).2.host.branches "x/product" =
      some u ∧
    alookup (process_repo cfg0 (some name) rid ttl st).2.host.branches "main" =
      some u := by
  by_cases hpu : p = u
  · subst hpu
    have hr := run_identical st name rid p m0 s0 n0 f0 ttl h hcerr
    exact ⟨hr.1, hr.2.2.1, hr.2.2.2.1⟩
  · by_cases hanc : is_ancestor st.host.commits p u = true
    · have hnb : is_ancestor st.host.commits u p = false := by
        cases h2 : is_ancestor st.host.commits u p
        · rfl
        · exact absurd ⟨hanc, h2, hpu⟩ hnc
      have hr := run_behind st name rid u m0 p s0 n0 f0 ttl h hcerr hpu hanc hnb
      exact ⟨hr.1, hr.2.2.1, hr.2.2.2.1⟩
    · have hanc2 : is_ancestor st.host.commits p u = false := by
        cases h2 : is_ancestor st.host.commits p u
        · rfl
        · exact absurd h2 hanc
      have hr := run_forced st name rid u m0 p s0 n0 f0 ttl h hcerr hpu hanc2
      exact ⟨hr.1, hr.2.2.1, hr.2.2.2.1⟩

/-- Witness for C1: the concrete upstream-advance run (every branch at
A, upstream head C) ends with both product and mirror at C and no skip
note. -/
theorem C1_product_converges_witness :
    (process_repo cfg0 (some "r1") "run1" 800 linear_st).1.map (fun r => r.notes) =
      .ok [] ∧
    alookup (process_repo cfg0 (some "r1") "run1" 800 linear_st).2.host.branches
      "x/product" = some "C" ∧
    alookup (process_repo cfg0 (some "r1") "run1" 800 linear_st).2.host.branches
      "main" = some "C" :=
  C1_product_converges linear_st "r1" "run1" "C" "A" "A" "A" "A" "A" 800
    ⟨by rfl, by decide, by rfl, by rfl, by rfl, by rfl, by rfl, by decide, by rfl,
      by decide, by rfl, by decide, by rfl, by decide, by rfl, by decide, by rfl,
      by decide⟩ (by rfl) (by decide)

/-! ## C5 — fast-forward preference -/

/-- C5: when the step-6 compare of product against the synced mirror
reports behind, the first (and, unless rejected, only) ref mutation
attempted on the product branch during the whole run is a non-forced
update to the mirror's SHA; a forced update to that same SHA is issued
only when the host rejects the non-forced attempt, and the outcome then
records the fallback as reset (ff failed). -/
theorem C5_fast_forward_preference (st : St) (name rid u m0 p s0 n0 f0 : String)
    (ttl : Int)
    (h : RunReady st u m0 p s0 n0 f0 ttl)
    (hcerr : st.host.compareError = none)
    (htrace : st.trace = [])
    (hpu : p ≠ u)
    (hanc : is_ancestor st.host.commits p u = true)
    (hnb : is_ancestor st.host.commits u p = false) :
    compare_status (compare_shas
      { st.host with branches := aset st.host.branches "main" u } p u) = "behind" ∧
    ((process_repo cfg0 (some name) rid ttl st).2.trace).head? =
      some (.patchAttempt "x/product" u false) ∧
    (process_repo cfg0 (some name) rid ttl st).2.trace =
      (if st.host.rejectNonFF then
        [.patchAttempt "x/product" u false, .patchAttempt "x/product" u true]
       else [.patchAttempt "x/product" u false]) ∧
    (process_repo cfg0 (some name) rid ttl st).1.map (fun r => r.product_merge) =
      .ok (some (if st.host.rejectNonFF then "reset (ff failed)" else "fast-forwarded")) := by
  have hr := run_behind st name rid u m0 p s0 n0 f0 ttl h hcerr hpu hanc hnb
  have htr : (process_repo cfg0 (some name) rid ttl st).2.trace =
      (if st.host.rejectNonFF then
        [.patchAttempt "x/product" u false, .patchAttempt "x/product" u true]
       else [.patchAttempt "x/product" u false]) := by
    rw [hr.2.2.2.2, htrace]
    simp
  refine ⟨?_, ?_, htr, hr.2.1⟩
  · simp [compare_shas, compare_status, hpu, hanc]
  · rw [htr]
    cases hb : st.host.rejectNonFF <;> simp

/-- Witness for C5: the concrete behind run against a host that rejects
non-forced updates attempts the fast-forward first and then the forced
fallback, recording it. -/
theorem C5_fast_forward_preference_witness :
    compare_status (compare_shas
      { reject_ff_st.host with
          branches := aset reject_ff_st.host.branches "main" "C" } "A" "C") = "behind" ∧
    ((process_repo cfg0 (some "r1") "run1" 800 reject_ff_st).2.trace).head? =
      some (.patchAttempt "x/product" "C" false) ∧
    (process_repo cfg0 (some "r1") "run1" 800 reject_ff_st).2.trace =
      (if reject_ff_st.host.rejectNonFF then
        [.patchAttempt "x/product" "C" false, .patchAttempt "x/product" "C" true]
       else [.patchAttempt "x/product" "C" false]) ∧
    (process_repo cfg0 (some "r1") "run1" 800 reject_ff_st).1.map
      (fun r => r.product_merge) =
      .ok (some (if reject_ff_st.host.rejectNonFF then "reset (ff failed)"
        else "fast-forwarded")) :=
  C5_fast_forward_preference reject_ff_st "r1" "run1" "C" "A" "A" "A" "A" "A" 800
    ⟨by rfl, by decide, by rfl, by rfl, by rfl, by rfl, by rfl, by decide, by rfl,
      by decide, by rfl, by decide, by rfl, by decide, by rfl, by decide, by rfl,
      by decide⟩ (by rfl) (by rfl) (by decide) (by decide) (by decide)

/-- Witness for C4: the concrete failing-sync run creates issue 1, and
running it again updates issue 1 instead of duplicating it. -/
theorem C4_mirror_sync_failure_witness :
    (process_repo cfg0 (some "r1") "run1" 800 sync_error_st).2.host.branches =
      sync_error_st.host.branches ∧
    open_titled_count (process_repo cfg0 (some "r1") "run1" 800 sync_error_st).2.host.issues
        "[automation] mirror sync failed" =
      max (open_titled_count sync_error_st.host.issues "[automation] mirror sync failed")
        1 := by
  have h := C4_mirror_sync_failure sync_error_st "r1" "run1" 800 409 "A"
    (by rfl) (by rfl) (by rfl) (by rfl) (by decide) (by rfl) (by rfl)
  exact ⟨h.2.1, h.2.2.2.2⟩

/-! ## C6 — bootstrap idempotence -/

theorem good_cons (l : List (String × String)) (k k2 v : String)
    (hg : branch_good l k) (hv : v ≠ "") : branch_good ((k2, v) :: l) k := by
  obtain ⟨s, hs, hsne⟩ := hg
  by_cases h2 : k2 = k
  · exact ⟨v, by simp [alookup, h2], hv⟩
  · exact ⟨s, by simp [alookup, h2, hs], hsne⟩

theorem wf_cons (l : List (String × String)) (k2 v : String)
    (hw : branches_wf l) (hv : v ≠ "") : branches_wf ((k2, v) :: l) := by
  intro pr hpr
  rcases List.mem_cons.mp hpr with h | h
  · subst h; exact hv
  · exact hw pr h

theorem wf_good (l : List (String × String)) (k s : String)
    (hw : branches_wf l) (hs : alookup l k = some s) : branch_good l k :=
  ⟨s, hs, hw (k, s) (alookup_some_mem l k s hs)⟩

theorem ref_sha_optional_run (ref : String) (st : St) :
    ref_sha_optional ref st = (.ok (alookup st.host.branches ref), st) := by
  unfold ref_sha_optional ref_sha
  rcases hb : alookup st.host.branches ref with _ | s <;>
    simp [bind_def, pure_def, mbind, mpure, mtry, mget, mthrow, hb]

theorem ensure_branch_exists_run (ref base s : String) (st : St)
    (hb : alookup st.host.branches ref = some s) (hs : s ≠ "") :
    ensure_branch ref base st = (.ok ⟨"exists", s⟩, st) := by
  unfold ensure_branch
  simp only [bind_def, pure_def]
  rw [mbind_eq_of_ok (ref_sha_optional_run ref st)]
  simp [hb, hs, str_truthy, mpure]

theorem ensure_branch_ok_run (ref base : String) (st st2 : St) (er : EnsureResult)
    (h : ensure_branch ref base st = (.ok er, st2)) :
    (st2 = st ∧ er.status = "exists" ∧
      alookup st.host.branches ref = some er.sha ∧ er.sha ≠ "") ∨
    (er = ⟨"created", base⟩ ∧ (alookup st.host.commits base).isSome = true ∧
      st2.host.branches = (ref, base) :: st.host.branches ∧
      st2.host.commits = st.host.commits ∧ st2.cache = st.cache ∧
      st2.now = st.now) := by
  unfold ensure_branch at h
  simp only [bind_def, pure_def] at h
  rw [mbind_eq_of_ok (ref_sha_optional_run ref st)] at h
  rcases hb : alookup st.host.branches ref with _ | s <;> rw [hb] at h
  · rcases hcb : alookup st.host.commits base with _ | ps <;>
      simp [str_truthy, create_ref, bind_def, pure_def, mbind, mpure, mget, mset,
        mthrow, mmodify, hb, hcb] at h
    rcases h with ⟨her, hst⟩
    right
    refine ⟨her.symm, by simp [hcb], ?_, ?_, ?_, ?_⟩ <;> rw [← hst]
  · by_cases hs : s = ""
    · subst hs
      rcases hcb : alookup st.host.commits base with _ | ps <;>
        simp [str_truthy, create_ref, bind_def, pure_def, mbind, mpure, mget, mset,
          mthrow, mmodify, hb, hcb] at h
    · simp [str_truthy, mpure, hs] at h
      rcases h with ⟨her, hst⟩
      left
      refine ⟨hst.symm, ?_, ?_, ?_⟩ <;> rw [← her] <;> simp [hb, hs]

theorem cached_ref_sha_ok_host (org name ref : String) (ttl : Int) (st st2 : St)
    (v : String) (h : cached_ref_sha org name ref ttl st = (.ok v, st2)) :
    st2.host = st.host ∧ st2.now = st.now := by
  rw [cached_ref_sha_run] at h
  rcases hg : get_ref_sha st.cache org name ref ttl st.now with _ | s <;> rw [hg] at h
  · rcases hb : alookup st.host.branches ref with _ | s2 <;> rw [hb] at h
    · cases h
    · cases h
      exact ⟨rfl, rfl⟩
  · cases h
    exact ⟨rfl, rfl⟩

theorem cached_ref_sha_ok_of_branch (org name ref : String) (ttl : Int) (st : St)
    (s : String) (hb : alookup st.host.branches ref = some s) :
    ∃ v st2, cached_ref_sha org name ref ttl st = (.ok v, st2) ∧
      st2.host = st.host ∧ st2.now = st.now := by
  rw [cached_ref_sha_run]
  rcases hg : get_ref_sha st.cache org name ref ttl st.now with _ | sc
  · rw [hb]
    exact ⟨s, _, rfl, rfl, rfl⟩
  · exact ⟨sc, st, rfl, rfl, rfl⟩

/-- C6: ensure_branch is create-only — a branch resolving to a truthy
sha is returned untouched — and the bootstrap sequence is idempotent:
when a first bootstrap run succeeds from a well-formed state (every
branch sha nonempty, the empty string not a commit), running the same
bootstrap sequence again succeeds, reports every branch as existing,
and changes no branch. -/
theorem C6_bootstrap_idempotent (st st1 : St)
    (org name product staging snapshot feature msha : String) (ttl : Int)
    (out : BootstrapOut)
    (hwf : branches_wf st.host.branches)
    (hcne : alookup st.host.commits "" = none)
    (h1 : bootstrap_branches org name product staging snapshot feature msha ttl st =
      (.ok out, st1)) :
    (∀ (ref base s : String) (st0 : St), alookup st0.host.branches ref = some s → s ≠ "" →
      ensure_branch ref base st0 = (.ok ⟨"exists", s⟩, st0)) ∧
    (∃ out2 st2,
      bootstrap_branches org name product staging snapshot feature msha ttl st1 =
        (.ok out2, st2) ∧
      st2.host.branches = st1.host.branches ∧
      out2.product_result.status = "exists" ∧ out2.staging_result.status = "exists" ∧
      out2.snapshot_result.status = "exists" ∧ out2.feature_result.status = "exists") := by
  refine ⟨fun ref base s st0 hb hs => ensure_branch_exists_run ref base s st0 hb hs, ?_⟩
  -- invert the first run
  have h1' := h1
  unfold bootstrap_branches at h1'
  simp only [bind_def, pure_def] at h1'
  obtain ⟨pr1, stA, hA, h1b⟩ := mbind_ok_inv h1'
  obtain ⟨psb, stB, hB, h1c⟩ := mbind_ok_inv h1b
  obtain ⟨sr1, stC, hC, h1d⟩ := mbind_ok_inv h1c
  obtain ⟨ss1, stD, hD, h1e⟩ := mbind_ok_inv h1d
  obtain ⟨nr1, stE, hE, h1f⟩ := mbind_ok_inv h1e
  obtain ⟨fr1, stF, hF, h1g⟩ := mbind_ok_inv h1f
  have hfin : st1 = stF := by
    simp [mpure] at h1g
    exact h1g.2.symm
  -- step A: ensure product
  have hAfacts : branches_wf stA.host.branches ∧ branch_good stA.host.branches product ∧
      stA.host.commits = st.host.commits := by
    rcases ensure_branch_ok_run _ _ _ _ _ hA with ⟨hst, _, hbk, hne⟩ | ⟨_, hcs, hbr, hcm, _, _⟩
    · subst hst
      exact ⟨hwf, wf_good _ _ _ hwf hbk, rfl⟩
    · have hbne : msha ≠ "" := by
        intro he
        rw [he, hcne] at hcs
        cases hcs
      rw [hbr, hcm]
      exact ⟨wf_cons _ _ _ hwf hbne, ⟨msha, by simp [alookup], hbne⟩, rfl⟩
  -- step B: cached product read
  have hBh := cached_ref_sha_ok_host _ _ _ _ _ _ _ hB
  -- step C: ensure staging
  have hCfacts : branches_wf stC.host.branches ∧ branch_good stC.host.branches product ∧
      branch_good stC.host.branches staging ∧ stC.host.commits = stA.host.commits := by
    rcases ensure_branch_ok_run _ _ _ _ _ hC with ⟨hst, _, hbk, hne⟩ | ⟨_, hcs, hbr, hcm, _, _⟩
    · subst hst
      rw [hBh.1]
      exact ⟨hAfacts.1, hAfacts.2.1, wf_good _ _ _ (hBh.1 ▸ hAfacts.1) (hBh.1 ▸ hbk), rfl⟩
    · have hbne : psb ≠ "" := by
        intro he
        rw [hBh.1, hAfacts.2.2] at hcs
        rw [he, hcne] at hcs
        cases hcs
      rw [hbr, hBh.1, hcm, hBh.1]
      exact ⟨wf_cons _ _ _ hAfacts.1 hbne,
        good_cons _ _ _ _ hAfacts.2.1 hbne, ⟨psb, by simp [alookup], hbne⟩, rfl⟩
  -- step D: cached staging read
  have hDh := cached_ref_sha_ok_host _ _ _ _ _ _ _ hD
  -- step E: ensure snapshot
  have hEfacts : branches_wf stE.host.branches ∧ branch_good stE.host.branches product ∧
      branch_good stE.host.branches staging ∧ branch_good stE.host.branches snapshot ∧
      stE.host.commits = stC.host.commits := by
    rcases ensure_branch_ok_run _ _ _ _ _ hE with ⟨hst, _, hbk, hne⟩ | ⟨_, hcs, hbr, hcm, _, _⟩
    · subst hst
      rw [hDh.1]
      exact ⟨hCfacts.1, hCfacts.2.1, hCfacts.2.2.1,
        wf_good _ _ _ (hDh.1 ▸ hCfacts.1) (hDh.1 ▸ hbk), rfl⟩
    · have hbne : ss1 ≠ "" := by
        intro he
        rw [hDh.1, hCfacts.2.2.2, hAfacts.2.2] at hcs
        rw [he, hcne] at hcs
        cases hcs
      rw [hbr, hDh.1, hcm, hDh.1]
      exact ⟨wf_cons _ _ _ hCfacts.1 hbne, good_cons _ _ _ _ hCfacts.2.1 hbne,
        good_cons _ _ _ _ hCfacts.2.2.1 hbne, ⟨ss1, by simp [alookup], hbne⟩, rfl⟩
  -- step F: ensure feature
  have hFfacts : branch_good stF.host.branches product ∧
      branch_good stF.host.branches staging ∧ branch_good stF.host.branches snapshot ∧
      branch_good stF.host.branches feature := by
    rcases ensure_branch_ok_run _ _ _ _ _ hF with ⟨hst, _, hbk, hne⟩ | ⟨_, hcs, hbr, hcm, _, _⟩
    · subst hst
      exact ⟨hEfacts.2.1, hEfacts.2.2.1, hEfacts.2.2.2.1,
        wf_good _ _ _ hEfacts.1 hbk⟩
    · have hbne : psb ≠ "" := by
        intro he
        rw [hEfacts.2.2.2.2, hCfacts.2.2.2, hAfacts.2.2] at hcs
        rw [he, hcne] at hcs
        cases hcs
      rw [hbr]
      exact ⟨good_cons _ _ _ _ hEfacts.2.1 hbne, good_cons _ _ _ _ hEfacts.2.2.1 hbne,
        good_cons _ _ _ _ hEfacts.2.2.2.1 hbne, ⟨psb, by simp [alookup], hbne⟩⟩
  -- run the sequence a second time from st1 = stF
  subst hfin
  obtain ⟨pg, hpg, hpgne⟩ := hFfacts.1
  obtain ⟨sg, hsg, hsgne⟩ := hFfacts.2.1
  obtain ⟨ng, hng, hngne⟩ := hFfacts.2.2.1
  obtain ⟨fg, hfg, hfgne⟩ := hFfacts.2.2.2
  obtain ⟨v1, stB2, hB2, hB2h, _⟩ := cached_ref_sha_ok_of_branch org name product ttl st1
    pg hpg
  obtain ⟨v2, stC2, hC2, hC2h, _⟩ := cached_ref_sha_ok_of_branch org name staging ttl stB2
    sg (by rw [hB2h]; exact hsg)
  refine ⟨⟨⟨"exists", pg⟩, ⟨"exists", sg⟩, ⟨"exists", ng⟩, ⟨"exists", fg⟩, v1⟩, stC2,
    ?_, ?_, rfl, rfl, rfl, rfl⟩
  · unfold bootstrap_branches
    simp only [bind_def, pure_def]
    rw [mbind_eq_of_ok (ensure_branch_exists_run product msha pg st1 hpg hpgne)]
    rw [mbind_eq_of_ok hB2]
    rw [mbind_eq_of_ok (ensure_branch_exists_run staging v1 sg stB2
      (by rw [hB2h]; exact hsg) hsgne)]
    rw [mbind_eq_of_ok hC2]
    rw [mbind_eq_of_ok (ensure_branch_exists_run snapshot v2 ng stC2
      (by rw [hC2h, hB2h]; exact hng) hngne)]
    rw [mbind_eq_of_ok (ensure_branch_exists_run feature v1 fg stC2
      (by rw [hC2h, hB2h]; exact hfg) hfgne)]
    rfl
  · rw [hC2h, hB2h]

/-- Witness for C6: the concrete second bootstrap of the witness run
leaves every branch where the first run left it. -/
theorem C6_bootstrap_idempotent_witness :
    (bootstrap_branches "org" "r1" "x/product" "x/staging" "x/snapshot" "x/feature"
      "C" 800 c6w_st1).2.host.branches = c6w_st1.host.branches := by
  obtain ⟨_, out2, st2, he, hbr, _⟩ := C6_bootstrap_idempotent linear_st c6w_st1
    "org" "r1" "x/product" "x/staging" "x/snapshot" "x/feature" "C" 800 c6w_out
    (by unfold branches_wf; decide) (by decide) (by rfl)
  rw [he]
  exact hbr

end GhShared
